import Mathlib

/-!
# A page-table allocator over a static arena

Shallow embedding of `memory_management.c`: a static arena of
`MY_NUMBER_OF_PAGES` pages, one descriptor per page, and the operations
`sanity_check`, `initialize`, `my_alloc`, `my_realloc`, `my_free` and
`my_memcpy`.

Conventions of the embedding.

* The descriptor table `memory_info` is a function from page index to
  descriptor.  Only the indices `0 .. MY_NUMBER_OF_PAGES - 1` exist in the
  program.  In `sanity_check`, `initialize` and `my_alloc` every index stays
  below the bound of the enclosing `for` loop; in `my_free` and `my_realloc`
  every access is bounds-checked, and an access outside the table (undefined
  behaviour in C) makes the operation return `none`.
* The arena `my_memory` is a function from byte offset to byte value; only the
  offsets below `MY_MEMORY_SIZE` exist, and a copy that touches any other
  offset returns `none`.
* A pointer into the arena is its distance from `my_memory` counted in
  `long long` words, as in `memory_address - my_memory`; `NULL` is `none`.
* `size_t` is taken to be 64 bits wide and `int` 32 bits wide; conversions
  between the two wrap, as they do on the usual ABIs.
* The flag `consecutive` is an `unsigned char` that only ever holds `0` or
  `1`; it is a `Bool` here.
* `print_info` only logs and is left out.
-/

namespace MemoryManagement

/-! ## Geometry -/

/-- Number of pages of the arena. -/
abbrev MY_NUMBER_OF_PAGES : Nat := 16

/-- Number of `long long` words of a page. -/
abbrev MY_PAGE_SIZE : Nat := 512

/-- Number of bytes of a `long long` word. -/
abbrev MY_ALIGNMENT : Nat := 8

/-- Number of bytes of the arena. -/
abbrev MY_MEMORY_SIZE : Nat := MY_NUMBER_OF_PAGES * MY_PAGE_SIZE * MY_ALIGNMENT

/-! ## Data model -/

/-- One page descriptor (`struct memory_page`). -/
structure memory_page where
  used_memory : Nat
  consecutive : Bool
deriving DecidableEq, Repr

/-- The descriptor table `memory_info`. -/
abbrev Table := Nat → memory_page

/-- The arena `my_memory`, byte by byte. -/
abbrev Memory := Nat → Nat

/-- Assignment `memory_info[i].used_memory = v`. -/
def set_used (t : Table) (i : Nat) (v : Nat) : Table :=
  fun j => if j = i then ⟨v, (t j).consecutive⟩ else t j

/-- Assignment `memory_info[i].consecutive = b`. -/
def set_consecutive (t : Table) (i : Nat) (b : Bool) : Table :=
  fun j => if j = i then ⟨(t j).used_memory, b⟩ else t j

/-- Assignment of one byte of the arena. -/
def set_byte (m : Memory) (a : Nat) (v : Nat) : Memory :=
  fun b => if b = a then v else m b

/-! ## Machine integers -/

/-- Conversion of a `size_t` value to `int`: reduction modulo `2 ^ 32` into
the signed range. -/
def to_int (n : Nat) : Int :=
  if n % 4294967296 < 2147483648 then ((n % 4294967296 : Nat) : Int)
  else ((n % 4294967296 : Nat) : Int) - 4294967296

/-- Conversion of an integer result to `size_t`: reduction modulo `2 ^ 64`. -/
def to_size_t (x : Int) : Nat := (x % 18446744073709551616).toNat

/-! ## `sanity_check` and `initialize` -/

/-- The loop of `sanity_check`: `k` iterations left, current index `i`. -/
def sanity_loop : Nat → Nat → Table → Table
  | 0, _, t => t
  | k + 1, i, t =>
    sanity_loop k (i + 1)
      (if (t i).used_memory = 0 then set_consecutive t i false else t)

/-- The function `sanity_check`. -/
def sanity_check (t : Table) : Table :=
  set_consecutive (sanity_loop MY_NUMBER_OF_PAGES 0 t) (MY_NUMBER_OF_PAGES - 1) false

/-- The first loop of `initialize`: `k` iterations left, current index `i`. -/
def initialize_loop : Nat → Nat → Table → Table
  | 0, _, t => t
  | k + 1, i, t => initialize_loop k (i + 1) (set_used (set_consecutive t i false) i 0)

/-- The descriptor table after `initialize` (static storage starts zeroed). -/
def initialize_table : Table :=
  initialize_loop MY_NUMBER_OF_PAGES 0 (fun _ => ⟨0, false⟩)

/-- The arena after `initialize`: every word is `0xaaaaaaaaaaaaaaaa`, so every
byte is `0xaa`. -/
def initialize_memory : Memory := fun _ => 170

/-! ## `my_memcpy` -/

/-- The ascending loop of `my_memcpy`: `k` iterations left, current index `i`. -/
def copy_ascending (dest src : Nat) : Nat → Nat → Memory → Option Memory
  | 0, _, m => some m
  | k + 1, i, m =>
    if src + i < MY_MEMORY_SIZE ∧ dest + i < MY_MEMORY_SIZE then
      copy_ascending dest src k (i + 1) (set_byte m (dest + i) (m (src + i)))
    else none

/-- The descending loop of `my_memcpy`: the current index is `k - 1`, and the
loop ends when it becomes negative. -/
def copy_descending (dest src : Nat) : Nat → Memory → Option Memory
  | 0, m => some m
  | k + 1, m =>
    if src + k < MY_MEMORY_SIZE ∧ dest + k < MY_MEMORY_SIZE then
      copy_descending dest src k (set_byte m (dest + k) (m (src + k)))
    else none

/-- The function `my_memcpy`; pointers are byte offsets into the arena, `none`
is `NULL`, the size is an `int`. -/
def my_memcpy (m : Memory) (destination source : Option Nat) (size : Int) :
    Option Memory :=
  match destination, source with
  | some d, some s =>
    if size = 0 then some m
    else if d < s then copy_ascending d s size.toNat 0 m
    else copy_descending d s size.toNat m
  | _, _ => some m

/-! ## `my_alloc` -/

/-- The single-page scan of `my_alloc`: `k` iterations left, current index `i`. -/
def alloc_single (size : Nat) (t : Table) : Nat → Nat → Option Nat × Table
  | 0, _ => (none, t)
  | k + 1, i =>
    if (t i).used_memory = 0 then
      (some (i * MY_PAGE_SIZE), set_consecutive (set_used t i size) i false)
    else alloc_single size t k (i + 1)

/-- The marking loop of `my_alloc` over `j`: `k` iterations left. -/
def alloc_mark (start_i : Nat) : Nat → Nat → Table → Table
  | 0, _, t => t
  | k + 1, j, t =>
    alloc_mark start_i k (j + 1)
      (set_consecutive (set_used t (j + start_i) (MY_PAGE_SIZE * MY_ALIGNMENT))
        (j + start_i) true)

/-- The multi-page scan of `my_alloc`: `k` iterations left, current index `i`,
and the loop variables `start_i`, `memory_address` and
`number_of_consecutive_free_pages`. -/
def alloc_multi (size : Nat) (required_number_of_pages : Int) (t : Table) :
    Nat → Nat → Nat → Option Nat → Int → Option Nat × Table
  | 0, _, _, _, _ => (none, t)
  | k + 1, i, start_i, memory_address, free_pages =>
    if (t i).used_memory ≠ 0 then
      alloc_multi size required_number_of_pages t k (i + 1) (i + 1) none 0
    else
      let memory_address :=
        if memory_address = none then some (i * MY_PAGE_SIZE) else memory_address
      if free_pages + 1 = required_number_of_pages then
        let t1 := alloc_mark start_i (required_number_of_pages - 1).toNat 0 t
        let t2 := set_used t1 i
          (to_size_t ((size : Int)
            - (required_number_of_pages - 1) * MY_ALIGNMENT * MY_PAGE_SIZE))
        (memory_address, set_consecutive t2 i false)
      else
        alloc_multi size required_number_of_pages t k (i + 1) start_i memory_address
          (free_pages + 1)

/-- The function `my_alloc`: the returned pointer (`none` is `NULL`) and the
descriptor table afterwards. -/
def my_alloc (t : Table) (size : Nat) : Option Nat × Table :=
  let t := sanity_check t
  if size ≤ MY_PAGE_SIZE * MY_ALIGNMENT then
    alloc_single size t MY_NUMBER_OF_PAGES 0
  else
    let required_number_of_pages := to_int (size / (MY_PAGE_SIZE * MY_ALIGNMENT))
    if required_number_of_pages > MY_NUMBER_OF_PAGES then (none, t)
    else alloc_multi size required_number_of_pages t MY_NUMBER_OF_PAGES 0 0 none 0

/-! ## `my_free` -/

/-- The loop of `my_free`: `page_number` is the value after the increment.
The first argument bounds the number of iterations; every iteration visits a
new in-bounds page, so with `MY_NUMBER_OF_PAGES + 1` the bound is never the
reason for `none`: the walk ends, or leaves the table (undefined behaviour). -/
def free_loop : Nat → Nat → Table → Option Table
  | 0, _, _ => none
  | k + 1, page_number, t =>
    if page_number < MY_NUMBER_OF_PAGES then
      let t1 := set_used t page_number 0
      if (t1 page_number).consecutive = true then free_loop k (page_number + 1) t1
      else some t1
    else none

/-- The function `my_free`, for a pointer `ptr` into the arena. -/
def my_free (t : Table) (ptr : Nat) : Option Table :=
  let page_number := ptr / MY_PAGE_SIZE
  free_loop (MY_NUMBER_OF_PAGES + 1) page_number (sanity_check t)

/-! ## `my_realloc` -/

/-- The run walk at the start of `my_realloc`: `page` is `current_last_page`
after the increment, `n` is `current_number_of_pages` before it.  Returns the
final `current_last_page` and `current_number_of_pages`.  (`current_size` is
never read and is left out.)  The first argument bounds the iterations as in
`free_loop`. -/
def realloc_walk (t : Table) : Nat → Nat → Nat → Option (Nat × Nat)
  | 0, _, _ => none
  | k + 1, page, n =>
    if page < MY_NUMBER_OF_PAGES then
      if (t page).consecutive = true then realloc_walk t k (page + 1) (n + 1)
      else some (page, n + 1)
    else none

/-- The loop of the shrink branch: `k` iterations left (`page_difference`
counts up to zero), `current_last_page` counts down. -/
def realloc_shrink : Nat → Int → Table → Option (Int × Table)
  | 0, current_last_page, t => some (current_last_page, t)
  | k + 1, current_last_page, t =>
    if 0 ≤ current_last_page ∧ current_last_page < MY_NUMBER_OF_PAGES then
      realloc_shrink k (current_last_page - 1)
        (set_used (set_consecutive t current_last_page.toNat false)
          current_last_page.toNat 0)
    else none

/-- The loop counting `following_free_pages`.  The first argument bounds the
iterations; the guard `i < MY_NUMBER_OF_PAGES` ends the loop earlier. -/
def realloc_following (t : Table) (page_difference : Int) : Nat → Nat → Int → Int
  | 0, _, following_free_pages => following_free_pages
  | k + 1, i, following_free_pages =>
    if i < MY_NUMBER_OF_PAGES ∧ (t i).used_memory = 0
        ∧ following_free_pages < page_difference then
      realloc_following t page_difference k (i + 1) (following_free_pages + 1)
    else following_free_pages

/-- The loop counting `previous_free_pages`.  The first argument bounds the
iterations; the guard `i >= 0` ends the loop earlier. -/
def realloc_previous (t : Table) (page_difference : Int) : Nat → Int → Int → Int
  | 0, _, previous_free_pages => previous_free_pages
  | k + 1, i, previous_free_pages =>
    if 0 ≤ i ∧ (t i.toNat).used_memory = 0 ∧ previous_free_pages < page_difference then
      realloc_previous t page_difference k (i - 1) (previous_free_pages + 1)
    else previous_free_pages

/-- The loops marking pages `current_last_page + i` as full continuation
pages: `k` iterations left, current index `i`. -/
def realloc_mark_following (current_last_page : Nat) : Nat → Nat → Table → Option Table
  | 0, _, t => some t
  | k + 1, i, t =>
    if current_last_page + i < MY_NUMBER_OF_PAGES then
      realloc_mark_following current_last_page k (i + 1)
        (set_consecutive
          (set_used t (current_last_page + i) (MY_ALIGNMENT * MY_PAGE_SIZE))
          (current_last_page + i) true)
    else none

/-- The loop marking pages `page_number - i` as full continuation pages:
`k` iterations left, current index `i` (starting at `1`). -/
def realloc_mark_previous (page_number : Nat) : Nat → Nat → Table → Option Table
  | 0, _, t => some t
  | k + 1, i, t =>
    if i ≤ page_number ∧ page_number - i < MY_NUMBER_OF_PAGES then
      realloc_mark_previous page_number k (i + 1)
        (set_used (set_consecutive t (page_number - i) true) (page_number - i)
          (MY_ALIGNMENT * MY_PAGE_SIZE))
    else none

/-- The new terminal page's `used_memory` in `my_realloc`:
`size - required_number_of_pages * MY_ALIGNMENT * MY_PAGE_SIZE`. -/
def realloc_remainder (size : Nat) (required_number_of_pages : Int) : Nat :=
  to_size_t ((size : Int) - required_number_of_pages * MY_ALIGNMENT * MY_PAGE_SIZE)

/-- The function `my_realloc`, for a pointer `ptr` into the arena: `none` is
undefined behaviour, otherwise the returned pointer (`none` is `NULL`), the
descriptor table and the arena afterwards. -/
def my_realloc (t : Table) (m : Memory) (ptr : Nat) (size : Nat) :
    Option (Option Nat × Table × Memory) :=
  let required_number_of_pages : Int := to_int (size / (MY_PAGE_SIZE * MY_ALIGNMENT))
  let page_number := ptr / MY_PAGE_SIZE
  let t := sanity_check t
  match realloc_walk t (MY_NUMBER_OF_PAGES + 1) page_number 0 with
  | none => none
  | some (current_last_page, current_number_of_pages) =>
    let page_difference : Int := required_number_of_pages - current_number_of_pages
    if required_number_of_pages = current_number_of_pages then
      some (some ptr,
        set_used t current_last_page (realloc_remainder size required_number_of_pages), m)
    else if required_number_of_pages < current_number_of_pages then
      match realloc_shrink (-page_difference).toNat current_last_page t with
      | none => none
      | some (last, t1) =>
        if 0 ≤ last ∧ last < MY_NUMBER_OF_PAGES then
          some (some ptr,
            set_used t1 last.toNat (realloc_remainder size required_number_of_pages), m)
        else none
    else
      let following_free_pages :=
        realloc_following t page_difference (MY_NUMBER_OF_PAGES + 1) (current_last_page + 1) 0
      let previous_free_pages :=
        realloc_previous t page_difference (MY_NUMBER_OF_PAGES + 1) ((page_number : Int) - 1) 0
      if following_free_pages = page_difference then
        match realloc_mark_following current_last_page page_difference.toNat 0 t with
        | none => none
        | some t1 =>
          let last := current_last_page + page_difference.toNat
          if last < MY_NUMBER_OF_PAGES then
            some (some ptr,
              set_consecutive
                (set_used t1 last (realloc_remainder size required_number_of_pages))
                last false, m)
          else none
      else if following_free_pages + previous_free_pages ≥ page_difference then
        let allocated_pages := previous_free_pages
        match realloc_mark_previous page_number previous_free_pages.toNat 1 t with
        | none => none
        | some t1 =>
          match realloc_mark_following current_last_page
              (page_difference - allocated_pages).toNat 0 t1 with
          | none => none
          | some t2 =>
            let last := current_last_page + (page_difference - allocated_pages).toNat
            if last < MY_NUMBER_OF_PAGES then
              let t3 := set_consecutive
                (set_used t2 last (realloc_remainder size required_number_of_pages))
                last false
              let new_ptr := ((ptr : Int) - MY_PAGE_SIZE * previous_free_pages).toNat
              match my_memcpy m (some (new_ptr * MY_ALIGNMENT)) (some (ptr * MY_ALIGNMENT))
                  (((current_last_page : Int) - page_number + 1) * MY_PAGE_SIZE
                    * MY_ALIGNMENT) with
              | none => none
              | some m1 => some (some new_ptr, t3, m1)
            else none
      else
        match my_alloc t size with
        | (some newPointer, t1) =>
          match my_memcpy m (some (newPointer * MY_ALIGNMENT)) (some (ptr * MY_ALIGNMENT))
              (to_int size) with
          | none => none
          | some m1 =>
            match my_free t1 ptr with
            | none => none
            | some t2 => some (some newPointer, t2, m1)
        | (none, t1) => some (none, t1, m)

/-! ## Specification vocabulary -/

/-- Invariant 1: a page with `used_memory = 0` is not flagged `consecutive`. -/
def invariant_1 (t : Table) : Prop :=
  ∀ i, i < MY_NUMBER_OF_PAGES → (t i).used_memory = 0 → (t i).consecutive = false

/-- Invariant 2: the last page is not flagged `consecutive`. -/
def invariant_2 (t : Table) : Prop :=
  (t (MY_NUMBER_OF_PAGES - 1)).consecutive = false

/-- Pages `s .. s + n - 1` all have `used_memory = 0`. -/
def free_window (t : Table) (s n : Nat) : Prop :=
  ∀ j, j < n → (t (s + j)).used_memory = 0

instance (t : Table) : Decidable (invariant_1 t) := by
  unfold invariant_1; infer_instance

instance (t : Table) : Decidable (invariant_2 t) := by
  unfold invariant_2; infer_instance

instance (t : Table) (s n : Nat) : Decidable (free_window t s n) := by
  unfold free_window; infer_instance

/-- The table in which pages `s .. s + n - 2` of `t` are full continuation
pages and page `s + n - 1` is the terminal page holding `last` bytes. -/
def mark_run (t : Table) (s n last : Nat) : Table :=
  fun x =>
    if x = s + n - 1 then ⟨last, false⟩
    else if s ≤ x ∧ x < s + n - 1 then ⟨MY_PAGE_SIZE * MY_ALIGNMENT, true⟩
    else t x

/-- The pages of the allocation starting at page `s`: the pages reached from
`s` by following `consecutive` flags, as the walk of `my_realloc` and `my_free`
does (`[]` when the walk leaves the table). -/
def run_pages (t : Table) (s : Nat) : List Nat :=
  match realloc_walk t (MY_NUMBER_OF_PAGES + 1) s 0 with
  | none => []
  | some (_, n) => List.range' s n

/-- The sum of `used_memory` over the pages listed. -/
def run_size (t : Table) (pages : List Nat) : Nat :=
  (pages.map (fun i => (t i).used_memory)).sum

/-- The table after `initialize`, `a = my_alloc 57344` (pages 0 to 13),
`my_alloc 100` (page 14), `c = my_alloc 100` (page 15) and `my_free a`:
the one-page run `c` lies on the last page, behind the occupied page 14, and
pages 0 to 13 are free. -/
def state_run_on_last_page : Option Table :=
  let a := my_alloc initialize_table 57344
  let b := my_alloc a.2 100
  let c := my_alloc b.2 100
  match a.1 with
  | some pa => my_free c.2 pa
  | none => none

/-! ## Basic facts about descriptor updates -/

theorem set_used_apply (t : Table) (i v j : Nat) :
    set_used t i v j = if j = i then ⟨v, (t j).consecutive⟩ else t j := rfl

theorem set_consecutive_apply (t : Table) (i : Nat) (b : Bool) (j : Nat) :
    set_consecutive t i b j = if j = i then ⟨(t j).used_memory, b⟩ else t j := rfl

theorem sanity_loop_apply (k : Nat) : ∀ (i : Nat) (t : Table) (j : Nat),
    sanity_loop k i t j =
      if i ≤ j ∧ j < i + k ∧ (t j).used_memory = 0 then ⟨(t j).used_memory, false⟩
      else t j := by
  induction k with
  | zero =>
    intro i t j
    have : ¬ (i ≤ j ∧ j < i + 0 ∧ (t j).used_memory = 0) := by omega
    rw [sanity_loop, if_neg this]
  | succ k ih =>
    intro i t j
    rw [sanity_loop, ih]
    by_cases hji : j = i
    · subst hji
      by_cases hu : (t j).used_memory = 0
      · have h1 : ¬ (j + 1 ≤ j ∧ j < j + 1 + k ∧
            ((if (t j).used_memory = 0 then set_consecutive t j false else t) j).used_memory
              = 0) := by omega
        have h2 : j ≤ j ∧ j < j + (k + 1) ∧ (t j).used_memory = 0 := ⟨le_refl _, by omega, hu⟩
        rw [if_neg h1, if_pos h2]
        simp [hu, set_consecutive_apply]
      · have h1 : ¬ (j + 1 ≤ j ∧ j < j + 1 + k ∧
            ((if (t j).used_memory = 0 then set_consecutive t j false else t) j).used_memory
              = 0) := by omega
        have h2 : ¬ (j ≤ j ∧ j < j + (k + 1) ∧ (t j).used_memory = 0) := by
          intro h; exact hu h.2.2
        rw [if_neg h1, if_neg h2]
        simp [hu]
    · have e : (if (t i).used_memory = 0 then set_consecutive t i false else t) j = t j := by
        split
        · simp [set_consecutive_apply, hji]
        · rfl
      rw [e]
      by_cases hc : i ≤ j ∧ j < i + (k + 1) ∧ (t j).used_memory = 0
      · have hc2 : i + 1 ≤ j ∧ j < i + 1 + k ∧ (t j).used_memory = 0 :=
          ⟨by omega, by omega, hc.2.2⟩
        rw [if_pos hc, if_pos hc2]
      · have hc2 : ¬ (i + 1 ≤ j ∧ j < i + 1 + k ∧ (t j).used_memory = 0) := by
          intro h; exact hc ⟨by omega, by omega, h.2.2⟩
        rw [if_neg hc, if_neg hc2]

theorem sanity_check_used (t : Table) (j : Nat) :
    (sanity_check t j).used_memory = (t j).used_memory := by
  unfold sanity_check
  rw [set_consecutive_apply, sanity_loop_apply]
  split <;> split <;> rfl

theorem sanity_check_consecutive (t : Table) (j : Nat) :
    (sanity_check t j).consecutive =
      if j = MY_NUMBER_OF_PAGES - 1 ∨ (j < MY_NUMBER_OF_PAGES ∧ (t j).used_memory = 0)
      then false else (t j).consecutive := by
  unfold sanity_check
  rw [set_consecutive_apply, sanity_loop_apply]
  by_cases h1 : j = MY_NUMBER_OF_PAGES - 1
  · rw [if_pos h1, if_pos (Or.inl h1)]
  · rw [if_neg h1]
    by_cases h2 : j < MY_NUMBER_OF_PAGES ∧ (t j).used_memory = 0
    · have h3 : 0 ≤ j ∧ j < 0 + MY_NUMBER_OF_PAGES ∧ (t j).used_memory = 0 :=
        ⟨Nat.zero_le _, by omega, h2.2⟩
      rw [if_pos h3, if_pos (Or.inr h2)]
    · have h3 : ¬ (0 ≤ j ∧ j < 0 + MY_NUMBER_OF_PAGES ∧ (t j).used_memory = 0) := by
        intro h; exact h2 ⟨by omega, h.2.2⟩
      have h4 : ¬ (j = MY_NUMBER_OF_PAGES - 1 ∨ (j < MY_NUMBER_OF_PAGES ∧ (t j).used_memory = 0)) := by
        intro h; rcases h with h | h
        · exact h1 h
        · exact h2 h
      rw [if_neg h3, if_neg h4]

theorem sanity_check_of_invariants (t : Table) (h1 : invariant_1 t) (h2 : invariant_2 t) :
    sanity_check t = t := by
  funext j
  have hu := sanity_check_used t j
  have hc := sanity_check_consecutive t j
  have e : (sanity_check t j).consecutive = (t j).consecutive := by
    rw [hc]
    split
    · rename_i h
      rcases h with h | h
      · rw [h]; exact h2.symm
      · exact (h1 j h.1 h.2).symm
    · rfl
  cases hs : sanity_check t j with
  | mk u c =>
    cases ht : t j with
    | mk u2 c2 =>
      rw [hs, ht] at hu e
      simp only at hu e
      rw [hu, e]

theorem sanity_check_invariant_1 (t : Table) : invariant_1 (sanity_check t) := by
  intro i hi hu
  rw [sanity_check_used] at hu
  rw [sanity_check_consecutive]
  simp [hi, hu]

theorem sanity_check_invariant_2 (t : Table) : invariant_2 (sanity_check t) := by
  unfold invariant_2
  rw [sanity_check_consecutive]
  simp

theorem sanity_check_idem (t : Table) : sanity_check (sanity_check t) = sanity_check t :=
  sanity_check_of_invariants _ (sanity_check_invariant_1 t) (sanity_check_invariant_2 t)

/-! ## `my_alloc`: the single-page scan -/

theorem alloc_single_found (size : Nat) (t : Table) (k : Nat) :
    ∀ (i0 i : Nat), i0 ≤ i → i < i0 + k → (t i).used_memory = 0 →
      (∀ j, i0 ≤ j → j < i → (t j).used_memory ≠ 0) →
      alloc_single size t k i0 =
        (some (i * MY_PAGE_SIZE), set_consecutive (set_used t i size) i false) := by
  induction k with
  | zero => intro i0 i h1 h2; omega
  | succ k ih =>
    intro i0 i h1 h2 h3 h4
    rw [alloc_single]
    by_cases e : i0 = i
    · subst e
      rw [if_pos h3]
    · have hne : (t i0).used_memory ≠ 0 := h4 i0 (le_refl _) (by omega)
      rw [if_neg hne]
      exact ih (i0 + 1) i (by omega) (by omega) h3
        (fun j hj1 hj2 => h4 j (by omega) hj2)

theorem alloc_single_none (size : Nat) (t : Table) (k : Nat) :
    ∀ (i0 : Nat), (∀ j, i0 ≤ j → j < i0 + k → (t j).used_memory ≠ 0) →
      alloc_single size t k i0 = (none, t) := by
  induction k with
  | zero => intro i0 _; rfl
  | succ k ih =>
    intro i0 h
    rw [alloc_single, if_neg (h i0 (le_refl _) (by omega))]
    exact ih (i0 + 1) (fun j hj1 hj2 => h j (by omega) (by omega))

/-- C3. Single-page first-fit: for a size between 1 and the page capacity,
`my_alloc` returns the address of the lowest-indexed page `i` with
`used_memory = 0`, sets that page to `used_memory = size` and
`consecutive = false`, and keeps the `used_memory` of every other page; when no
page has `used_memory = 0` it returns `NULL`. -/
theorem my_alloc_single_page_first_fit (t : Table) (size : Nat)
    (_h1 : 1 ≤ size) (h2 : size ≤ MY_PAGE_SIZE * MY_ALIGNMENT) :
    (∀ i, i < MY_NUMBER_OF_PAGES → (t i).used_memory = 0 →
        (∀ j, j < i → (t j).used_memory ≠ 0) →
        (my_alloc t size).1 = some (i * MY_PAGE_SIZE)
          ∧ (my_alloc t size).2 i = ⟨size, false⟩
          ∧ ∀ j, j ≠ i → ((my_alloc t size).2 j).used_memory = (t j).used_memory)
    ∧ ((∀ i, i < MY_NUMBER_OF_PAGES → (t i).used_memory ≠ 0) →
        (my_alloc t size).1 = none) := by
  constructor
  · intro i hi hfree hmin
    have e : my_alloc t size =
        (some (i * MY_PAGE_SIZE),
          set_consecutive (set_used (sanity_check t) i size) i false) := by
      unfold my_alloc
      simp only [if_pos h2]
      apply alloc_single_found size (sanity_check t) MY_NUMBER_OF_PAGES 0 i (Nat.zero_le _)
        (by omega)
      · rw [sanity_check_used]; exact hfree
      · intro j _ hj
        rw [sanity_check_used]
        exact hmin j hj
    rw [e]
    refine ⟨rfl, ?_, ?_⟩
    · simp [set_consecutive_apply, set_used_apply]
    · intro j hj
      simp [set_consecutive_apply, set_used_apply, hj, sanity_check_used]
  · intro hfull
    have e : my_alloc t size = (none, sanity_check t) := by
      unfold my_alloc
      simp only [if_pos h2]
      apply alloc_single_none
      intro j _ hj
      rw [sanity_check_used]
      exact hfull j (by omega)
    rw [e]

/-- Witness for C3 on the table in which exactly pages 0 and 1 are occupied. -/
theorem my_alloc_single_page_first_fit_witness :
    (my_alloc (fun i => if i < 2 then ⟨7, false⟩ else ⟨0, true⟩) 100).1
        = some (2 * MY_PAGE_SIZE)
      ∧ (my_alloc (fun i => if i < 2 then ⟨7, false⟩ else ⟨0, true⟩) 100).2 2 = ⟨100, false⟩ :=
  have h := (my_alloc_single_page_first_fit
    (fun i => if i < 2 then ⟨7, false⟩ else ⟨0, true⟩) 100 (by decide) (by decide)).1 2
    (by decide) (by decide) (by decide)
  ⟨h.1, h.2.1⟩

/-! ## `my_alloc`: the multi-page scan -/

theorem to_int_of_lt (n : Nat) (h : n < 2147483648) : to_int n = (n : Int) := by
  unfold to_int
  have e : n % 4294967296 = n := Nat.mod_eq_of_lt (by omega)
  rw [e, if_pos h]

theorem to_size_t_of_nat (n : Nat) (h : n < 18446744073709551616) :
    to_size_t (n : Int) = n := by
  unfold to_size_t
  omega

theorem alloc_mark_apply (start : Nat) (k : Nat) : ∀ (j : Nat) (t : Table) (x : Nat),
    alloc_mark start k j t x =
      if start + j ≤ x ∧ x < start + j + k then ⟨MY_PAGE_SIZE * MY_ALIGNMENT, true⟩
      else t x := by
  induction k with
  | zero =>
    intro j t x
    have : ¬ (start + j ≤ x ∧ x < start + j + 0) := by omega
    rw [alloc_mark, if_neg this]
  | succ k ih =>
    intro j t x
    rw [alloc_mark, ih]
    by_cases hx : x = j + start
    · subst hx
      have h1 : ¬ (start + (j + 1) ≤ j + start ∧ j + start < start + (j + 1) + k) := by omega
      have h2 : start + j ≤ j + start ∧ j + start < start + j + (k + 1) := by omega
      rw [if_neg h1, if_pos h2]
      simp [set_consecutive_apply, set_used_apply]
    · have e : set_consecutive (set_used t (j + start) (MY_PAGE_SIZE * MY_ALIGNMENT))
          (j + start) true x = t x := by
        simp [set_consecutive_apply, set_used_apply, hx]
      rw [e]
      by_cases hc : start + j ≤ x ∧ x < start + j + (k + 1)
      · have hc2 : start + (j + 1) ≤ x ∧ x < start + (j + 1) + k := by omega
        rw [if_pos hc, if_pos hc2]
      · have hc2 : ¬ (start + (j + 1) ≤ x ∧ x < start + (j + 1) + k) := by omega
        rw [if_neg hc, if_neg hc2]

theorem alloc_multi_spec (size n : Nat) (hn : 1 ≤ n) (t : Table) (k : Nat) :
    ∀ (i start cnt : Nat) (addr : Option Nat),
      i + k = MY_NUMBER_OF_PAGES → start + cnt = i → cnt < n →
      addr = (if cnt = 0 then none else some (start * MY_PAGE_SIZE)) →
      (∀ j, start ≤ j → j < i → (t j).used_memory = 0) →
      (∀ s, s < start → ¬ free_window t s n) →
      (∃ s, s + n ≤ MY_NUMBER_OF_PAGES ∧ free_window t s n
          ∧ (∀ s2, s2 < s → ¬ free_window t s2 n)
          ∧ alloc_multi size (n : Int) t k i start addr (cnt : Int) =
              (some (s * MY_PAGE_SIZE),
                mark_run t s n (to_size_t ((size : Int)
                  - ((n : Int) - 1) * MY_ALIGNMENT * MY_PAGE_SIZE))))
      ∨ ((∀ s, s + n ≤ MY_NUMBER_OF_PAGES → ¬ free_window t s n)
          ∧ alloc_multi size (n : Int) t k i start addr (cnt : Int) = (none, t)) := by
  induction k with
  | zero =>
    intro i start cnt addr hk hs hc _ _ hbefore
    right
    refine ⟨?_, rfl⟩
    intro s hsn
    by_cases h : s < start
    · exact hbefore s h
    · omega
  | succ k ih =>
    intro i start cnt addr hk hs hc haddr hfree hbefore
    simp only [alloc_multi]
    by_cases hu : (t i).used_memory ≠ 0
    · rw [if_pos hu]
      have := ih (i + 1) (i + 1) 0 none (by omega) (by omega) (by omega) (by simp)
        (fun j h1 h2 => by omega)
        (fun s hs2 => by
          by_cases h : s < start
          · exact hbefore s h
          · intro hw
            have := hw (i - s) (by omega)
            rw [show s + (i - s) = i by omega] at this
            exact hu this)
      simpa using this
    · rw [if_neg hu]
      have hu0 : (t i).used_memory = 0 := by
        by_contra h; exact hu h
      have haddr2 : (if addr = none then some (i * MY_PAGE_SIZE) else addr)
          = some (start * MY_PAGE_SIZE) := by
        by_cases c0 : cnt = 0
        · have : start = i := by omega
          rw [haddr, if_pos c0, this]
          simp
        · rw [haddr, if_neg c0]
          simp
      simp only [haddr2]
      by_cases hfin : (cnt : Int) + 1 = (n : Int)
      · rw [if_pos hfin]
        left
        have hi : i = start + n - 1 := by omega
        refine ⟨start, by omega, ?_, hbefore, ?_⟩
        · intro j hj
          by_cases e : start + j = i
          · rw [e]; exact hu0
          · exact hfree _ (by omega) (by omega)
        · congr 1
          funext x
          have hn1 : ((n : Int) - 1).toNat = n - 1 := by omega
          rw [hn1, set_consecutive_apply, set_used_apply, alloc_mark_apply]
          unfold mark_run
          by_cases hx : x = i
          · have hx2 : x = start + n - 1 := by omega
            rw [if_pos hx, if_pos hx, if_pos hx2]
          · have hx2 : ¬ x = start + n - 1 := by omega
            rw [if_neg hx, if_neg hx, if_neg hx2]
            by_cases hr : start ≤ x ∧ x < start + n - 1
            · have hr2 : start + 0 ≤ x ∧ x < start + 0 + (n - 1) := by omega
              rw [if_pos hr, if_pos hr2]
            · have hr2 : ¬ (start + 0 ≤ x ∧ x < start + 0 + (n - 1)) := by omega
              rw [if_neg hr, if_neg hr2]
      · rw [if_neg hfin]
        have := ih (i + 1) start (cnt + 1) (some (start * MY_PAGE_SIZE)) (by omega) (by omega)
          (by omega) (by simp)
          (fun j h1 h2 => by
            by_cases e : j = i
            · rw [e]; exact hu0
            · exact hfree j h1 (by omega))
          hbefore
        simpa using this

theorem free_window_sanity_check (t : Table) (s n : Nat) :
    free_window (sanity_check t) s n ↔ free_window t s n := by
  unfold free_window
  simp only [sanity_check_used]

theorem mark_run_used_outside (t : Table) (s n last x : Nat) (hn : 1 ≤ n)
    (hx : x < s ∨ s + n ≤ x) : mark_run t s n last x = t x := by
  unfold mark_run
  have h1 : ¬ x = s + n - 1 := by omega
  have h2 : ¬ (s ≤ x ∧ x < s + n - 1) := by omega
  rw [if_neg h1, if_neg h2]

theorem my_alloc_multi_cases (t : Table) (size : Nat)
    (h1 : MY_PAGE_SIZE * MY_ALIGNMENT < size)
    (h2 : size / (MY_PAGE_SIZE * MY_ALIGNMENT) ≤ MY_NUMBER_OF_PAGES) :
    (∃ s, s + size / (MY_PAGE_SIZE * MY_ALIGNMENT) ≤ MY_NUMBER_OF_PAGES
        ∧ free_window t s (size / (MY_PAGE_SIZE * MY_ALIGNMENT))
        ∧ (∀ s2, s2 < s → ¬ free_window t s2 (size / (MY_PAGE_SIZE * MY_ALIGNMENT)))
        ∧ my_alloc t size =
            (some (s * MY_PAGE_SIZE),
              mark_run (sanity_check t) s (size / (MY_PAGE_SIZE * MY_ALIGNMENT))
                (size - (size / (MY_PAGE_SIZE * MY_ALIGNMENT) - 1)
                  * (MY_PAGE_SIZE * MY_ALIGNMENT))))
    ∨ ((∀ s, s + size / (MY_PAGE_SIZE * MY_ALIGNMENT) ≤ MY_NUMBER_OF_PAGES →
          ¬ free_window t s (size / (MY_PAGE_SIZE * MY_ALIGNMENT)))
        ∧ my_alloc t size = (none, sanity_check t)) := by
  have hn : 1 ≤ size / (MY_PAGE_SIZE * MY_ALIGNMENT) := by
    have : MY_PAGE_SIZE * MY_ALIGNMENT = 4096 := rfl
    rw [this] at h1 ⊢
    omega
  have hsz : ¬ size ≤ MY_PAGE_SIZE * MY_ALIGNMENT := by omega
  have hP : MY_NUMBER_OF_PAGES = 16 := rfl
  have hreq : to_int (size / (MY_PAGE_SIZE * MY_ALIGNMENT))
      = ((size / (MY_PAGE_SIZE * MY_ALIGNMENT) : Nat) : Int) :=
    to_int_of_lt _ (by omega)
  have hgt : ¬ (((size / (MY_PAGE_SIZE * MY_ALIGNMENT) : Nat) : Int)
      > ((MY_NUMBER_OF_PAGES : Nat) : Int)) := by omega
  have hlast : to_size_t ((size : Int)
      - (((size / (MY_PAGE_SIZE * MY_ALIGNMENT) : Nat) : Int) - 1)
        * (MY_ALIGNMENT : Nat) * (MY_PAGE_SIZE : Nat))
      = size - (size / (MY_PAGE_SIZE * MY_ALIGNMENT) - 1) * (MY_PAGE_SIZE * MY_ALIGNMENT) := by
    unfold to_size_t
    have e1 : MY_PAGE_SIZE * MY_ALIGNMENT = 4096 := rfl
    have e2 : ((MY_ALIGNMENT : Nat) : Int) = 8 := rfl
    have e3 : ((MY_PAGE_SIZE : Nat) : Int) = 512 := rfl
    have e4 : MY_NUMBER_OF_PAGES = 16 := rfl
    rw [e1, e4] at h2
    rw [e1] at hn
    rw [e1, e2, e3]
    omega
  have hmy : my_alloc t size =
      alloc_multi size ((size / (MY_PAGE_SIZE * MY_ALIGNMENT) : Nat) : Int) (sanity_check t)
        MY_NUMBER_OF_PAGES 0 0 none ((0 : Nat) : Int) := by
    unfold my_alloc
    simp only [if_neg hsz, hreq, if_neg hgt]
    rfl
  rcases alloc_multi_spec size (size / (MY_PAGE_SIZE * MY_ALIGNMENT)) hn (sanity_check t)
      MY_NUMBER_OF_PAGES 0 0 0 none (by omega) (by omega) (by omega) (by simp)
      (fun j _ hj => by omega) (fun s hs => by omega) with ⟨s, hs1, hs2, hs3, hs4⟩ | ⟨hno, hres⟩
  · left
    refine ⟨s, hs1, (free_window_sanity_check t s _).1 hs2, ?_, ?_⟩
    · intro s2 hs2lt hw
      exact hs3 s2 hs2lt ((free_window_sanity_check t s2 _).2 hw)
    · rw [hmy, hs4, hlast]
  · right
    refine ⟨?_, ?_⟩
    · intro s hs hw
      exact hno s hs ((free_window_sanity_check t s _).2 hw)
    · rw [hmy, hres]

/-- C4. Multi-page first-fit: for a size above the page capacity whose page
count `n = size / C` is at most `P`, `my_alloc` succeeds exactly when some
window of `n` pages inside the table is free; it then returns the address of
the first page of the smallest such window `s`, makes pages `s .. s + n - 2`
full continuation pages and page `s + n - 1` the terminal page with
`used_memory = size - (n - 1) * C`, and keeps the `used_memory` of every page
outside the window; otherwise it returns `NULL`. -/
theorem my_alloc_multi_page_first_fit (t : Table) (size : Nat)
    (h1 : MY_PAGE_SIZE * MY_ALIGNMENT < size)
    (h2 : size / (MY_PAGE_SIZE * MY_ALIGNMENT) ≤ MY_NUMBER_OF_PAGES) :
    ((my_alloc t size).1 ≠ none ↔
        ∃ s, s + size / (MY_PAGE_SIZE * MY_ALIGNMENT) ≤ MY_NUMBER_OF_PAGES
          ∧ free_window t s (size / (MY_PAGE_SIZE * MY_ALIGNMENT)))
    ∧ ∀ s, s + size / (MY_PAGE_SIZE * MY_ALIGNMENT) ≤ MY_NUMBER_OF_PAGES →
        free_window t s (size / (MY_PAGE_SIZE * MY_ALIGNMENT)) →
        (∀ s2, s2 < s → ¬ free_window t s2 (size / (MY_PAGE_SIZE * MY_ALIGNMENT))) →
        (my_alloc t size).1 = some (s * MY_PAGE_SIZE)
          ∧ (∀ j, j + 1 < size / (MY_PAGE_SIZE * MY_ALIGNMENT) →
              (my_alloc t size).2 (s + j) = ⟨MY_PAGE_SIZE * MY_ALIGNMENT, true⟩)
          ∧ (my_alloc t size).2 (s + size / (MY_PAGE_SIZE * MY_ALIGNMENT) - 1)
              = ⟨size - (size / (MY_PAGE_SIZE * MY_ALIGNMENT) - 1)
                  * (MY_PAGE_SIZE * MY_ALIGNMENT), false⟩
          ∧ ∀ x, (x < s ∨ s + size / (MY_PAGE_SIZE * MY_ALIGNMENT) ≤ x) →
              ((my_alloc t size).2 x).used_memory = (t x).used_memory := by
  have hn : 1 ≤ size / (MY_PAGE_SIZE * MY_ALIGNMENT) := by
    have : MY_PAGE_SIZE * MY_ALIGNMENT = 4096 := rfl
    rw [this] at h1 ⊢
    omega
  rcases my_alloc_multi_cases t size h1 h2 with ⟨s0, hs1, hs2, hs3, hs4⟩ | ⟨hno, hres⟩
  · constructor
    · rw [hs4]
      exact ⟨fun _ => ⟨s0, hs1, hs2⟩, fun _ => by simp⟩
    · intro s hs hw hmin
      have e : s = s0 := by
        rcases Nat.lt_trichotomy s s0 with h | h | h
        · exact absurd hw (hs3 s h)
        · exact h
        · exact absurd hs2 (hmin s0 h)
      subst e
      rw [hs4]
      refine ⟨rfl, ?_, ?_, ?_⟩
      · intro j hj
        show mark_run _ _ _ _ _ = _
        unfold mark_run
        have c1 : ¬ s + j = s + size / (MY_PAGE_SIZE * MY_ALIGNMENT) - 1 := by omega
        have c2 : s ≤ s + j ∧ s + j < s + size / (MY_PAGE_SIZE * MY_ALIGNMENT) - 1 := by omega
        rw [if_neg c1, if_pos c2]
      · show mark_run _ _ _ _ _ = _
        unfold mark_run
        rw [if_pos rfl]
      · intro x hx
        show (mark_run _ _ _ _ _).used_memory = _
        rw [mark_run_used_outside _ _ _ _ _ hn hx, sanity_check_used]
  · constructor
    · rw [hres]
      constructor
      · intro h; exact absurd rfl h
      · rintro ⟨s, hs, hw⟩
        exact absurd hw (hno s hs)
    · intro s hs hw _
      exact absurd hw (hno s hs)

/-- Witness for C4: pages 0 and 2 are occupied, a request of two pages lands
on pages 3 and 4. -/
theorem my_alloc_multi_page_first_fit_witness :
    (my_alloc (fun i => if i = 0 ∨ i = 2 then ⟨9, false⟩ else ⟨0, false⟩) 8197).1
        = some (3 * MY_PAGE_SIZE)
      ∧ (my_alloc (fun i => if i = 0 ∨ i = 2 then ⟨9, false⟩ else ⟨0, false⟩) 8197).2
          (3 + 8197 / (MY_PAGE_SIZE * MY_ALIGNMENT) - 1)
        = ⟨8197 - (8197 / (MY_PAGE_SIZE * MY_ALIGNMENT) - 1)
            * (MY_PAGE_SIZE * MY_ALIGNMENT), false⟩ :=
  have h := (my_alloc_multi_page_first_fit
    (fun i => if i = 0 ∨ i = 2 then ⟨9, false⟩ else ⟨0, false⟩) 8197
    (by decide) (by decide)).2 3 (by decide) (by decide) (by decide)
  ⟨h.1, h.2.2.1⟩

/-! ## `my_free` -/

theorem free_loop_run (k : Nat) : ∀ (fuel s : Nat) (t : Table),
    k + 1 ≤ fuel → s + k < MY_NUMBER_OF_PAGES →
    (∀ i, i < k → (t (s + i)).consecutive = true) →
    (t (s + k)).consecutive = false →
    free_loop fuel s t =
      some (fun x => if s ≤ x ∧ x ≤ s + k then ⟨0, (t x).consecutive⟩ else t x) := by
  induction k with
  | zero =>
    intro fuel s t hf hs _ hend
    obtain ⟨f, rfl⟩ : ∃ f, fuel = f + 1 := ⟨fuel - 1, by omega⟩
    have hs2 : s < MY_NUMBER_OF_PAGES := by omega
    have hc : ¬ ((set_used t s 0 s).consecutive = true) := by
      simp only [set_used_apply, if_pos rfl]
      rw [Nat.add_zero] at hend
      simp [hend]
    simp only [free_loop, if_pos hs2, if_neg hc]
    congr 1
    funext x
    rw [set_used_apply]
    by_cases hx : x = s
    · have : s ≤ x ∧ x ≤ s + 0 := by omega
      rw [if_pos hx, if_pos this]
    · have : ¬ (s ≤ x ∧ x ≤ s + 0) := by omega
      rw [if_neg hx, if_neg this]
  | succ k ih =>
    intro fuel s t hf hs hrun hend
    obtain ⟨f, rfl⟩ : ∃ f, fuel = f + 1 := ⟨fuel - 1, by omega⟩
    have hs2 : s < MY_NUMBER_OF_PAGES := by omega
    have hc : (set_used t s 0 s).consecutive = true := by
      simp only [set_used_apply, if_pos rfl]
      have := hrun 0 (by omega)
      rw [Nat.add_zero] at this
      exact this
    simp only [free_loop, if_pos hs2, if_pos hc]
    rw [ih f (s + 1) (set_used t s 0) (by omega) (by omega)
      (fun i hi => by
        have := hrun (i + 1) (by omega)
        rw [set_used_apply, if_neg (by omega)]
        rw [show s + 1 + i = s + (i + 1) by omega]
        exact this)
      (by
        rw [set_used_apply, if_neg (by omega)]
        rw [show s + 1 + k = s + (k + 1) by omega]
        exact hend)]
    congr 1
    funext x
    rw [set_used_apply]
    by_cases hx : x = s
    · have h1 : ¬ (s + 1 ≤ x ∧ x ≤ s + 1 + k) := by omega
      have h2 : s ≤ x ∧ x ≤ s + (k + 1) := by omega
      rw [if_neg h1, if_pos hx, if_pos h2]
    · rw [if_neg hx]
      by_cases h1 : s + 1 ≤ x ∧ x ≤ s + 1 + k
      · have h2 : s ≤ x ∧ x ≤ s + (k + 1) := by omega
        rw [if_pos h1, if_pos h2]
      · have h2 : ¬ (s ≤ x ∧ x ≤ s + (k + 1)) := by omega
        rw [if_neg h1, if_neg h2]

/-- C6. On a table satisfying invariants 1 and 2, `my_free` applied to the
address of page `s` of a well-formed run `s .. s + k` (pages `s .. s + k - 1`
flagged `consecutive`, page `s + k` not) returns, sets `used_memory = 0` on
every page of the run, keeps the `used_memory` of every other page, and
changes no `consecutive` flag. -/
theorem my_free_releases_exactly_the_run (t : Table) (s k : Nat)
    (h1 : invariant_1 t) (h2 : invariant_2 t)
    (hs : s + k < MY_NUMBER_OF_PAGES)
    (hrun : ∀ i, i < k → (t (s + i)).consecutive = true)
    (hend : (t (s + k)).consecutive = false) :
    ∃ t2, my_free t (s * MY_PAGE_SIZE) = some t2
      ∧ (∀ i, i ≤ k → (t2 (s + i)).used_memory = 0)
      ∧ (∀ x, (x < s ∨ s + k < x) → (t2 x).used_memory = (t x).used_memory)
      ∧ (∀ x, (t2 x).consecutive = (t x).consecutive) := by
  refine ⟨fun x => if s ≤ x ∧ x ≤ s + k then ⟨0, (t x).consecutive⟩ else t x, ?_, ?_, ?_, ?_⟩
  · unfold my_free
    have hp : s * MY_PAGE_SIZE / MY_PAGE_SIZE = s := Nat.mul_div_cancel s (by decide)
    simp only [hp]
    rw [sanity_check_of_invariants t h1 h2]
    exact free_loop_run k _ s t (by omega) hs hrun hend
  · intro i hi
    have : s ≤ s + i ∧ s + i ≤ s + k := by omega
    simp only [if_pos this]
  · intro x hx
    have : ¬ (s ≤ x ∧ x ≤ s + k) := by omega
    simp only [if_neg this]
  · intro x
    by_cases hx : s ≤ x ∧ x ≤ s + k
    · simp only [if_pos hx]
    · simp only [if_neg hx]

/-- Witness for C6: the run on pages 3 and 4 of a table with another
allocation on page 5. -/
theorem my_free_releases_exactly_the_run_witness :
    ∃ t2, my_free (fun i => if i = 3 then ⟨4096, true⟩ else if i = 4 then ⟨10, false⟩
          else if i = 5 then ⟨7, false⟩ else ⟨0, false⟩) (3 * MY_PAGE_SIZE) = some t2
      ∧ (∀ i, i ≤ 1 → (t2 (3 + i)).used_memory = 0)
      ∧ (∀ x, (x < 3 ∨ 3 + 1 < x) → (t2 x).used_memory
          = ((fun i => if i = 3 then ⟨4096, true⟩ else if i = 4 then ⟨10, false⟩
              else if i = 5 then ⟨7, false⟩ else ⟨0, false⟩ : Table) x).used_memory)
      ∧ (∀ x, (t2 x).consecutive
          = ((fun i => if i = 3 then ⟨4096, true⟩ else if i = 4 then ⟨10, false⟩
              else if i = 5 then ⟨7, false⟩ else ⟨0, false⟩ : Table) x).consecutive) :=
  my_free_releases_exactly_the_run
    (fun i => if i = 3 then ⟨4096, true⟩ else if i = 4 then ⟨10, false⟩
      else if i = 5 then ⟨7, false⟩ else ⟨0, false⟩) 3 1
    (by decide) (by decide) (by decide) (by decide) (by decide)

/-! ## Where the code departs from its contract -/

/-- C2. The code at the failing input: on the freshly initialised table
`my_alloc 4097` succeeds with a run of one page, whose capacity is 4096 bytes,
and accounts 4097 bytes to that page. -/
theorem my_alloc_4097_takes_one_page :
    (my_alloc initialize_table 4097).1 = some 0
      ∧ (my_alloc initialize_table 4097).2 0 = ⟨4097, false⟩
      ∧ run_pages (my_alloc initialize_table 4097).2 0 = [0]
      ∧ (run_pages (my_alloc initialize_table 4097).2 0).length
          * (MY_PAGE_SIZE * MY_ALIGNMENT) < 4097
      ∧ MY_PAGE_SIZE * MY_ALIGNMENT < ((my_alloc initialize_table 4097).2 0).used_memory := by
  decide

/-- C5. The code at the failing input: a request of 65537 bytes exceeds the
65536 bytes of the arena, and `my_alloc` on the freshly initialised table
returns page 0 instead of `NULL`, the last page being charged 4097 bytes. -/
theorem my_alloc_65537_succeeds :
    MY_NUMBER_OF_PAGES * (MY_PAGE_SIZE * MY_ALIGNMENT) < 65537
      ∧ (my_alloc initialize_table 65537).1 = some 0
      ∧ (my_alloc initialize_table 65537).2 15 = ⟨4097, false⟩ := by
  decide

/-- C8. The code at the failing input: after `my_alloc 8192` created the run
of pages 0 and 1 with 4096 bytes each, `my_realloc` of that run to the same
8192 bytes returns the pointer and leaves the terminal page with
`used_memory = 0` where `my_alloc` wrote 4096, so the run sums to 4096. -/
theorem my_realloc_equal_page_count_8192 :
    (my_alloc initialize_table 8192).1 = some 0
      ∧ (my_alloc initialize_table 8192).2 0 = ⟨4096, true⟩
      ∧ (my_alloc initialize_table 8192).2 1 = ⟨4096, false⟩
      ∧ (my_realloc (my_alloc initialize_table 8192).2 initialize_memory 0 8192).map
          (fun r => (r.1, r.2.1 0, r.2.1 1, run_size r.2.1 [0, 1]))
        = some (some 0, ⟨4096, true⟩, ⟨0, false⟩, 4096) := by
  decide

/-- C9. The code at the failing input: after `my_alloc 12288` created the run
of pages 0, 1 and 2, `my_realloc` of that run to 4097 bytes (one page) returns
the pointer and frees pages 1 and 2, but page 0 keeps `consecutive = true`, and
the next run walk from the pointer visits pages 0 and 1. -/
theorem my_realloc_shrink_keeps_flag :
    (my_alloc initialize_table 12288).1 = some 0
      ∧ run_pages (my_alloc initialize_table 12288).2 0 = [0, 1, 2]
      ∧ (my_realloc (my_alloc initialize_table 12288).2 initialize_memory 0 4097).map
          (fun r => (r.1, r.2.1 0, r.2.1 1, r.2.1 2, run_pages (sanity_check r.2.1) 0))
        = some (some 0, ⟨1, true⟩, ⟨0, false⟩, ⟨0, false⟩, [0, 1]) := by
  decide

/-- C1. The code at the failing input: after `initialize`, `a = my_alloc 8192`,
`my_realloc a 8192` (which returns `a`) and `b = my_alloc 100`, the live
allocations `a` and `b` are distinct, and page 1 belongs to both. -/
theorem live_runs_overlap_after_realloc :
    (my_alloc initialize_table 8192).1 = some 0
      ∧ (my_realloc (my_alloc initialize_table 8192).2 initialize_memory 0 8192).map
          (fun r => (r.1, (my_alloc r.2.1 100).1,
            run_pages (my_alloc r.2.1 100).2 0, run_pages (my_alloc r.2.1 100).2 1))
        = some (some 0, some (1 * MY_PAGE_SIZE), [0, 1], [1]) := by
  decide

/-! ## `my_realloc`: a failed call changes nothing -/

theorem alloc_single_none_table (size : Nat) (t : Table) (k : Nat) : ∀ (i : Nat),
    (alloc_single size t k i).1 = none → (alloc_single size t k i).2 = t := by
  induction k with
  | zero => intro i _; rfl
  | succ k ih =>
    intro i h
    rw [alloc_single] at h ⊢
    by_cases hu : (t i).used_memory = 0
    · rw [if_pos hu] at h
      exact absurd h (by simp)
    · rw [if_neg hu] at h ⊢
      exact ih (i + 1) h

theorem alloc_multi_none_table (size : Nat) (required : Int) (t : Table) (k : Nat) :
    ∀ (i start : Nat) (addr : Option Nat) (cnt : Int),
      (alloc_multi size required t k i start addr cnt).1 = none →
      (alloc_multi size required t k i start addr cnt).2 = t := by
  induction k with
  | zero => intro i start addr cnt _; rfl
  | succ k ih =>
    intro i start addr cnt h
    simp only [alloc_multi] at h ⊢
    by_cases hu : (t i).used_memory ≠ 0
    · rw [if_pos hu] at h ⊢
      exact ih _ _ _ _ h
    · rw [if_neg hu] at h ⊢
      by_cases hfin : cnt + 1 = required
      · rw [if_pos hfin] at h
        exfalso
        by_cases ha : addr = none
        · simp [ha] at h
        · simp [ha] at h
      · rw [if_neg hfin] at h ⊢
        exact ih _ _ _ _ h

theorem my_alloc_none_table (t : Table) (size : Nat) (h : (my_alloc t size).1 = none) :
    (my_alloc t size).2 = sanity_check t := by
  unfold my_alloc at h ⊢
  simp only at h ⊢
  by_cases hs : size ≤ MY_PAGE_SIZE * MY_ALIGNMENT
  · rw [if_pos hs] at h ⊢
    exact alloc_single_none_table _ _ _ _ h
  · rw [if_neg hs] at h ⊢
    by_cases hr : to_int (size / (MY_PAGE_SIZE * MY_ALIGNMENT)) > MY_NUMBER_OF_PAGES
    · rw [if_pos hr]
    · rw [if_neg hr] at h ⊢
      exact alloc_multi_none_table _ _ _ _ _ _ _ _ h

theorem my_realloc_null_unchanged (t : Table) (m : Memory) (ptr size : Nat)
    (h1 : invariant_1 t) (h2 : invariant_2 t)
    (r : Option Nat × Table × Memory)
    (h : my_realloc t m ptr size = some r) (hr : r.1 = none) : r.2 = (t, m) := by
  unfold my_realloc at h
  simp only [sanity_check_of_invariants t h1 h2] at h
  split at h
  · exact absurd h (by simp)
  · split at h
    · simp only [Option.some.injEq] at h
      subst h
      exact absurd hr (by simp)
    · split at h
      · split at h
        · exact absurd h (by simp)
        · split at h
          · simp only [Option.some.injEq] at h
            subst h
            exact absurd hr (by simp)
          · exact absurd h (by simp)
      · split at h
        · split at h
          · exact absurd h (by simp)
          · split at h
            · simp only [Option.some.injEq] at h
              subst h
              exact absurd hr (by simp)
            · exact absurd h (by simp)
        · split at h
          · split at h
            · exact absurd h (by simp)
            · split at h
              · exact absurd h (by simp)
              · split at h
                · split at h
                  · exact absurd h (by simp)
                  · simp only [Option.some.injEq] at h
                    subst h
                    exact absurd hr (by simp)
                · exact absurd h (by simp)
          · split at h
            · split at h
              · exact absurd h (by simp)
              · split at h
                · exact absurd h (by simp)
                · simp only [Option.some.injEq] at h
                  subst h
                  exact absurd hr (by simp)
            · rename_i t1 heq
              simp only [Option.some.injEq] at h
              subst h
              have e := my_alloc_none_table t size (by rw [heq])
              rw [heq, sanity_check_of_invariants t h1 h2] at e
              simp only at e
              rw [e]

/-- C7. A failed `my_realloc` is atomic: on a table satisfying invariants 1
and 2, if `my_realloc` returns `NULL` then the descriptor table (every
`used_memory` and every `consecutive` flag) and every byte of the arena are
as before the call. -/
theorem my_realloc_null_is_atomic (t : Table) (m : Memory) (ptr size : Nat)
    (h1 : invariant_1 t) (h2 : invariant_2 t)
    (hnull : (my_realloc t m ptr size).map (fun r => r.1) = some none) :
    (my_realloc t m ptr size).map (fun r => r.2) = some (t, m) := by
  cases hres : my_realloc t m ptr size with
  | none =>
    rw [hres] at hnull
    exact absurd hnull (by simp)
  | some r =>
    rw [hres] at hnull
    simp only [Option.map_some', Option.some.injEq] at hnull ⊢
    exact my_realloc_null_unchanged t m ptr size h1 h2 r hres hnull

/-- Witness for C7: every page holds a one-page allocation, and growing the
one on page 5 to two pages fails. -/
theorem my_realloc_null_is_atomic_witness :
    (my_realloc (fun _ => ⟨5, false⟩) initialize_memory (5 * MY_PAGE_SIZE) 8197).map
        (fun r => r.1) = some none
      ∧ (my_realloc (fun _ => ⟨5, false⟩) initialize_memory (5 * MY_PAGE_SIZE) 8197).map
        (fun r => r.2) = some (fun _ => ⟨5, false⟩, initialize_memory) :=
  ⟨by decide,
    my_realloc_null_is_atomic (fun _ => ⟨5, false⟩) initialize_memory (5 * MY_PAGE_SIZE) 8197
      (by decide) (by decide) (by decide)⟩

/-! ## `my_realloc`: growing forward in place -/

theorem realloc_walk_run (t : Table) (k : Nat) : ∀ (fuel s c : Nat),
    k + 1 ≤ fuel → s + k < MY_NUMBER_OF_PAGES →
    (∀ i, i < k → (t (s + i)).consecutive = true) →
    (t (s + k)).consecutive = false →
    realloc_walk t fuel s c = some (s + k, c + k + 1) := by
  induction k with
  | zero =>
    intro fuel s c hf hs _ hend
    obtain ⟨f, rfl⟩ : ∃ f, fuel = f + 1 := ⟨fuel - 1, by omega⟩
    have hs2 : s < MY_NUMBER_OF_PAGES := by omega
    rw [Nat.add_zero] at hend
    have hc : ¬ ((t s).consecutive = true) := by simp [hend]
    simp only [realloc_walk, if_pos hs2, if_neg hc]
    rfl
  | succ k ih =>
    intro fuel s c hf hs hrun hend
    obtain ⟨f, rfl⟩ : ∃ f, fuel = f + 1 := ⟨fuel - 1, by omega⟩
    have hs2 : s < MY_NUMBER_OF_PAGES := by omega
    have hc : (t s).consecutive = true := by
      have := hrun 0 (by omega)
      rw [Nat.add_zero] at this
      exact this
    simp only [realloc_walk, if_pos hs2, if_pos hc]
    rw [ih f (s + 1) (c + 1) (by omega) (by omega)
      (fun i hi => by
        have := hrun (i + 1) (by omega)
        rw [show s + 1 + i = s + (i + 1) by omega]
        exact this)
      (by
        rw [show s + 1 + k = s + (k + 1) by omega]
        exact hend)]
    congr 2 <;> omega

theorem realloc_following_all (t : Table) (page_difference : Int) (d : Nat) :
    ∀ (fuel i : Nat) (c : Int),
      d + 1 ≤ fuel → i + d ≤ MY_NUMBER_OF_PAGES →
      (∀ j, j < d → (t (i + j)).used_memory = 0) →
      c + d = page_difference →
      realloc_following t page_difference fuel i c = page_difference := by
  induction d with
  | zero =>
    intro fuel i c hf _ _ hc
    obtain ⟨f, rfl⟩ : ∃ f, fuel = f + 1 := ⟨fuel - 1, by omega⟩
    have hcond : ¬ (i < MY_NUMBER_OF_PAGES ∧ (t i).used_memory = 0 ∧ c < page_difference) := by
      intro h
      have := h.2.2
      omega
    simp only [realloc_following, if_neg hcond]
    omega
  | succ d ih =>
    intro fuel i c hf hi hfree hc
    obtain ⟨f, rfl⟩ : ∃ f, fuel = f + 1 := ⟨fuel - 1, by omega⟩
    have hcond : i < MY_NUMBER_OF_PAGES ∧ (t i).used_memory = 0 ∧ c < page_difference := by
      refine ⟨by omega, ?_, by omega⟩
      have := hfree 0 (by omega)
      rw [Nat.add_zero] at this
      exact this
    simp only [realloc_following, if_pos hcond]
    exact ih f (i + 1) (c + 1) (by omega) (by omega)
      (fun j hj => by
        have := hfree (j + 1) (by omega)
        rw [show i + 1 + j = i + (j + 1) by omega]
        exact this)
      (by omega)

theorem realloc_mark_following_apply (current_last_page : Nat) (k : Nat) :
    ∀ (i : Nat) (t : Table), current_last_page + i + k ≤ MY_NUMBER_OF_PAGES →
      realloc_mark_following current_last_page k i t =
        some (fun x =>
          if current_last_page + i ≤ x ∧ x < current_last_page + i + k then
            ⟨MY_ALIGNMENT * MY_PAGE_SIZE, true⟩
          else t x) := by
  induction k with
  | zero =>
    intro i t _
    rw [realloc_mark_following]
    congr 1
    funext x
    have : ¬ (current_last_page + i ≤ x ∧ x < current_last_page + i + 0) := by omega
    rw [if_neg this]
  | succ k ih =>
    intro i t hb
    have hin : current_last_page + i < MY_NUMBER_OF_PAGES := by omega
    rw [realloc_mark_following, if_pos hin, ih (i + 1) _ (by omega)]
    congr 1
    funext x
    by_cases hx : x = current_last_page + i
    · have c1 : ¬ (current_last_page + (i + 1) ≤ x ∧ x < current_last_page + (i + 1) + k) := by
        omega
      have c2 : current_last_page + i ≤ x ∧ x < current_last_page + i + (k + 1) := by omega
      rw [if_neg c1, if_pos c2, set_consecutive_apply, set_used_apply, if_pos hx, if_pos hx]
    · rw [set_consecutive_apply, set_used_apply, if_neg hx, if_neg hx]
      by_cases c1 : current_last_page + (i + 1) ≤ x ∧ x < current_last_page + (i + 1) + k
      · have c2 : current_last_page + i ≤ x ∧ x < current_last_page + i + (k + 1) := by omega
        rw [if_pos c1, if_pos c2]
      · have c2 : ¬ (current_last_page + i ≤ x ∧ x < current_last_page + i + (k + 1)) := by
          omega
        rw [if_neg c1, if_neg c2]

theorem memory_page_ext (p q : memory_page) (h1 : p.used_memory = q.used_memory)
    (h2 : p.consecutive = q.consecutive) : p = q := by
  cases p
  cases q
  simp only at h1 h2
  rw [h1, h2]

theorem sanity_check_full_page (t : Table) (x : Nat) (hx : x + 1 < MY_NUMBER_OF_PAGES)
    (h : t x = ⟨MY_PAGE_SIZE * MY_ALIGNMENT, true⟩) :
    sanity_check t x = ⟨MY_PAGE_SIZE * MY_ALIGNMENT, true⟩ := by
  apply memory_page_ext
  · rw [sanity_check_used, h]
  · rw [sanity_check_consecutive, h]
    have : ¬ (x = MY_NUMBER_OF_PAGES - 1
        ∨ (x < MY_NUMBER_OF_PAGES ∧ MY_PAGE_SIZE * MY_ALIGNMENT = 0)) := by
      intro h
      rcases h with h | h
      · omega
      · exact absurd h.2 (by decide)
    rw [if_neg this]

theorem sanity_check_consecutive_false (t : Table) (x : Nat)
    (h : (t x).consecutive = false) : (sanity_check t x).consecutive = false := by
  rw [sanity_check_consecutive]
  split
  · rfl
  · exact h

theorem sanity_check_flag_true (t : Table) (x : Nat)
    (h : (sanity_check t x).consecutive = true) :
    (t x).consecutive = true ∧ x ≠ MY_NUMBER_OF_PAGES - 1
      ∧ (x < MY_NUMBER_OF_PAGES → (t x).used_memory ≠ 0) := by
  rw [sanity_check_consecutive] at h
  by_cases c : x = MY_NUMBER_OF_PAGES - 1 ∨ (x < MY_NUMBER_OF_PAGES ∧ (t x).used_memory = 0)
  · rw [if_pos c] at h
    exact absurd h Bool.false_ne_true
  · rw [if_neg c] at h
    exact ⟨h, fun e => c (Or.inl e), fun hx hu => c (Or.inr ⟨hx, hu⟩)⟩

theorem sanity_check_flag_of (u : Table) (x : Nat) (hx : x ≠ MY_NUMBER_OF_PAGES - 1)
    (hu : (u x).used_memory ≠ 0) (hc : (u x).consecutive = true) :
    (sanity_check u x).consecutive = true := by
  have c : ¬ (x = MY_NUMBER_OF_PAGES - 1 ∨ (x < MY_NUMBER_OF_PAGES ∧ (u x).used_memory = 0)) := by
    intro h
    rcases h with h | h
    · exact hx h
    · exact hu h.2
  rw [sanity_check_consecutive, if_neg c]
  exact hc

theorem my_realloc_grow_forward_eq (t : Table) (m : Memory) (s n size q : Nat)
    (hq : size / (MY_PAGE_SIZE * MY_ALIGNMENT) = q)
    (hn : 1 ≤ n)
    (hrun : ∀ i, i < n - 1 → (sanity_check t (s + i)).consecutive = true)
    (hlast : (sanity_check t (s + (n - 1))).consecutive = false)
    (hm : n < q) (hexist : s + q ≤ MY_NUMBER_OF_PAGES)
    (hfree : ∀ i, n ≤ i → i < q → (t (s + i)).used_memory = 0) :
    my_realloc t m (s * MY_PAGE_SIZE) size =
      some (some (s * MY_PAGE_SIZE),
        set_consecutive
          (set_used
            (fun x =>
              if s + (n - 1) + 0 ≤ x ∧ x < s + (n - 1) + 0 + (q - n) then
                ⟨MY_ALIGNMENT * MY_PAGE_SIZE, true⟩
              else sanity_check t x)
            (s + (n - 1) + (q - n)) (realloc_remainder size (q : Int)))
          (s + (n - 1) + (q - n)) false, m) := by
  have hP : MY_NUMBER_OF_PAGES = 16 := rfl
  have hp : s * MY_PAGE_SIZE / MY_PAGE_SIZE = s := Nat.mul_div_cancel s (by decide)
  have hwalk : realloc_walk (sanity_check t) (MY_NUMBER_OF_PAGES + 1) s 0
      = some (s + (n - 1), n) := by
    have := realloc_walk_run (sanity_check t) (n - 1) (MY_NUMBER_OF_PAGES + 1) s 0
      (by omega) (by omega) hrun hlast
    rw [this]
    congr 2
    omega
  have hreq : to_int q = (q : Int) := to_int_of_lt q (by omega)
  have hne : ¬ ((q : Int) = (n : Int)) := by omega
  have hnlt : ¬ ((q : Int) < (n : Int)) := by omega
  have hfol : realloc_following (sanity_check t) ((q : Int) - (n : Int))
      (MY_NUMBER_OF_PAGES + 1) (s + (n - 1) + 1) 0 = (q : Int) - (n : Int) :=
    realloc_following_all (sanity_check t) _ (q - n) _ _ 0 (by omega) (by omega)
      (fun j hj => by
        rw [sanity_check_used, show s + (n - 1) + 1 + j = s + (n + j) by omega]
        exact hfree (n + j) (by omega) (by omega))
      (by omega)
  have htoNat : ((q : Int) - (n : Int)).toNat = q - n := by omega
  have hmark := realloc_mark_following_apply (s + (n - 1)) (q - n) 0 (sanity_check t)
    (by omega)
  have hlt : s + (n - 1) + (q - n) < MY_NUMBER_OF_PAGES := by omega
  unfold my_realloc
  simp only [hp, hq, hwalk, hreq, if_neg hne, if_neg hnlt, hfol, if_true, htoNat, hmark,
    if_pos hlt]

theorem run_pages_of_run (t : Table) (s k : Nat) (hs : s + k < MY_NUMBER_OF_PAGES)
    (hrun : ∀ i, i < k → (t (s + i)).consecutive = true)
    (hend : (t (s + k)).consecutive = false) :
    run_pages t s = List.range' s (k + 1) := by
  unfold run_pages
  rw [realloc_walk_run t k (MY_NUMBER_OF_PAGES + 1) s 0 (by omega) hs hrun hend]
  simp only [Nat.zero_add]

theorem run_pages_sanity_of_run (u : Table) (s k : Nat) (hs : s + k < MY_NUMBER_OF_PAGES)
    (hrun : ∀ i, i < k → (u (s + i)).consecutive = true ∧ (u (s + i)).used_memory ≠ 0)
    (hend : (u (s + k)).consecutive = false) :
    run_pages (sanity_check u) s = List.range' s (k + 1) := by
  have hP : MY_NUMBER_OF_PAGES = 16 := rfl
  exact run_pages_of_run (sanity_check u) s k hs
    (fun i hi => sanity_check_flag_of u _ (by omega) (hrun i hi).2 (hrun i hi).1)
    (sanity_check_consecutive_false u _ hend)

theorem my_realloc_grow_forward_aux (t : Table) (m : Memory) (s n size q : Nat)
    (hq : size / (MY_PAGE_SIZE * MY_ALIGNMENT) = q)
    (hn : 1 ≤ n)
    (hrun : ∀ i, i < n - 1 → (sanity_check t (s + i)).consecutive = true)
    (hlast : (sanity_check t (s + (n - 1))).consecutive = false)
    (hm : n < q) (hexist : s + q ≤ MY_NUMBER_OF_PAGES)
    (hfree : ∀ i, n ≤ i → i < q → (t (s + i)).used_memory = 0) :
    ∃ t2, my_realloc t m (s * MY_PAGE_SIZE) size = some (some (s * MY_PAGE_SIZE), t2, m)
      ∧ (∀ i, n - 1 ≤ i → i < q - 1 → t2 (s + i) = ⟨MY_PAGE_SIZE * MY_ALIGNMENT, true⟩)
      ∧ (∀ i, i < n - 1 → t2 (s + i) = sanity_check t (s + i))
      ∧ (t2 (s + (q - 1))).consecutive = false
      ∧ (∀ x, (x < s ∨ s + q ≤ x) → t2 x = sanity_check t x) := by
  have hP : MY_NUMBER_OF_PAGES = 16 := rfl
  refine ⟨_, my_realloc_grow_forward_eq t m s n size q hq hn hrun hlast hm hexist hfree,
    ?_, ?_, ?_, ?_⟩
  · intro i hi1 hi2
    have hne : ¬ (s + i = s + (n - 1) + (q - n)) := by omega
    have hc : s + (n - 1) + 0 ≤ s + i ∧ s + i < s + (n - 1) + 0 + (q - n) := by omega
    rw [set_consecutive_apply, set_used_apply, if_neg hne, if_neg hne]
    simp only [if_pos hc]
    rfl
  · intro i hi
    have hne : ¬ (s + i = s + (n - 1) + (q - n)) := by omega
    have hc : ¬ (s + (n - 1) + 0 ≤ s + i ∧ s + i < s + (n - 1) + 0 + (q - n)) := by omega
    rw [set_consecutive_apply, set_used_apply, if_neg hne, if_neg hne]
    simp only [if_neg hc]
  · have he : s + (q - 1) = s + (n - 1) + (q - n) := by omega
    rw [he, set_consecutive_apply, if_pos rfl]
  · intro x hx
    have hne : ¬ (x = s + (n - 1) + (q - n)) := by omega
    have hc : ¬ (s + (n - 1) + 0 ≤ x ∧ x < s + (n - 1) + 0 + (q - n)) := by omega
    rw [set_consecutive_apply, set_used_apply, if_neg hne, if_neg hne]
    simp only [if_neg hc]

/-- C10 (amended). Grow forward in place: let the run that the walk of
`my_realloc` finds at page `s` have `n` pages, that is, after `sanity_check`
pages `s .. s + n - 2` are flagged `consecutive` and page `s + n - 1` is not
(on a table satisfying invariants 1 and 2 this is a run that is well-formed by
its flags). For a size with `m = size / C > n` such that the `m - n` pages
after the run exist and are free, `my_realloc` returns the pointer unchanged
and leaves the arena unchanged; afterwards pages `s + n - 1 .. s + m - 2` are
full continuation pages, pages `s .. s + n - 2` keep their `used_memory`,
every page of `s .. s + m - 2` is flagged and page `s + m - 1` is not, the run
walked from the pointer is exactly `s .. s + m - 1`, and every page outside
`s .. s + m - 1` has the descriptor that `sanity_check` gives it: its
`used_memory` is unchanged, and its flag is unchanged when the table satisfied
invariants 1 and 2 before the call. -/
theorem my_realloc_grow_forward (t : Table) (m : Memory) (s n size : Nat)
    (hn : 1 ≤ n)
    (hrun : ∀ i, i < n - 1 → (sanity_check t (s + i)).consecutive = true)
    (hlast : (sanity_check t (s + (n - 1))).consecutive = false)
    (hm : n < size / (MY_PAGE_SIZE * MY_ALIGNMENT))
    (hexist : s + size / (MY_PAGE_SIZE * MY_ALIGNMENT) ≤ MY_NUMBER_OF_PAGES)
    (hfree : ∀ i, n ≤ i → i < size / (MY_PAGE_SIZE * MY_ALIGNMENT) →
      (t (s + i)).used_memory = 0) :
    ∃ t2, my_realloc t m (s * MY_PAGE_SIZE) size = some (some (s * MY_PAGE_SIZE), t2, m)
      ∧ (∀ i, n - 1 ≤ i → i < size / (MY_PAGE_SIZE * MY_ALIGNMENT) - 1 →
          t2 (s + i) = ⟨MY_PAGE_SIZE * MY_ALIGNMENT, true⟩)
      ∧ (∀ i, i < n - 1 → (t2 (s + i)).used_memory = (t (s + i)).used_memory)
      ∧ (∀ i, i < size / (MY_PAGE_SIZE * MY_ALIGNMENT) - 1 →
          (t2 (s + i)).consecutive = true)
      ∧ (t2 (s + (size / (MY_PAGE_SIZE * MY_ALIGNMENT) - 1))).consecutive = false
      ∧ run_pages t2 s = List.range' s (size / (MY_PAGE_SIZE * MY_ALIGNMENT))
      ∧ run_pages (sanity_check t2) s
          = List.range' s (size / (MY_PAGE_SIZE * MY_ALIGNMENT))
      ∧ (∀ x, (x < s ∨ s + size / (MY_PAGE_SIZE * MY_ALIGNMENT) ≤ x) →
          t2 x = sanity_check t x ∧ (t2 x).used_memory = (t x).used_memory)
      ∧ (invariant_1 t → invariant_2 t →
          ∀ x, (x < s ∨ s + size / (MY_PAGE_SIZE * MY_ALIGNMENT) ≤ x) → t2 x = t x) := by
  have hP : MY_NUMBER_OF_PAGES = 16 := rfl
  obtain ⟨t2, h1, h2, h3, h4, h5⟩ := my_realloc_grow_forward_aux t m s n size _ rfl hn hrun
    hlast hm hexist hfree
  generalize size / (MY_PAGE_SIZE * MY_ALIGNMENT) = q at *
  have hk : q - 1 + 1 = q := by omega
  have hflag : ∀ i, i < q - 1 →
      (t2 (s + i)).consecutive = true ∧ (t2 (s + i)).used_memory ≠ 0 := by
    intro i hi
    by_cases c : i < n - 1
    · rw [h3 i c]
      have := sanity_check_flag_true t (s + i) (hrun i c)
      exact ⟨hrun i c, by rw [sanity_check_used]; exact this.2.2 (by omega)⟩
    · rw [h2 i (by omega) hi]
      exact ⟨rfl, by decide⟩
  refine ⟨t2, h1, h2, ?_, fun i hi => (hflag i hi).1, h4, ?_, ?_, ?_, ?_⟩
  · intro i hi
    rw [h3 i hi, sanity_check_used]
  · rw [run_pages_of_run t2 s (q - 1) (by omega) (fun i hi => (hflag i hi).1) h4, hk]
  · rw [run_pages_sanity_of_run t2 s (q - 1) (by omega) hflag h4, hk]
  · intro x hx
    refine ⟨h5 x hx, ?_⟩
    rw [h5 x hx, sanity_check_used]
  · intro i1 i2 x hx
    rw [h5 x hx, sanity_check_of_invariants t i1 i2]

/-- Witness for C10: a run on pages 0 and 1 whose first page holds one byte,
as a shrink leaves it, grows to three pages over the free page 2. -/
theorem my_realloc_grow_forward_witness :
    ∃ t2, my_realloc (fun i => if i = 0 then ⟨1, true⟩ else if i = 4 then ⟨7, false⟩
          else ⟨0, false⟩) initialize_memory
          (0 * MY_PAGE_SIZE) 12288 = some (some (0 * MY_PAGE_SIZE), t2, initialize_memory)
      ∧ t2 (0 + 1) = ⟨MY_PAGE_SIZE * MY_ALIGNMENT, true⟩
      ∧ run_pages (sanity_check t2) 0 = List.range' 0 (12288 / (MY_PAGE_SIZE * MY_ALIGNMENT)) :=
  have h := my_realloc_grow_forward
    (fun i => if i = 0 then ⟨1, true⟩ else if i = 4 then ⟨7, false⟩ else ⟨0, false⟩)
    initialize_memory 0 2 12288
    (by decide) (by decide) (by decide) (by decide) (by decide) (by decide)
  h.elim (fun t2 ht2 =>
    ⟨t2, ht2.1, ht2.2.1 1 (by decide) (by decide), ht2.2.2.2.2.2.2.1⟩)

set_option maxRecDepth 20000 in
/-- C10, as stated, fails at two reachable states. After `initialize`,
`a = my_alloc 100` (page 0), `b = my_alloc 12288` (pages 1 to 3) and
`my_free b`, page 0 is a one-page run followed by the free page 1, and page 2
is free with a stale flag; `my_realloc a 8192` grows the run in place over
page 1 and returns `a`, and the descriptor of page 2, outside the new run,
changes from `(0, true)` to `(0, false)`. After `initialize`,
`p = my_alloc 12288` and `my_realloc p 4097`, the run at `p` is pages 0 and 1
with page 0 at `(1, true)` and page 2 free; `my_realloc p 12288` grows it in
place to pages 0 to 2 and returns `p`, and page 0, which is not the last page
of the run, keeps `used_memory = 1`. -/
theorem my_realloc_grow_forward_changes_outside_flag :
    (my_free (my_alloc (my_alloc initialize_table 100).2 12288).2 (1 * MY_PAGE_SIZE)).map
        (fun t3 => (t3 0, t3 1, t3 2))
      = some (⟨100, false⟩, ⟨0, true⟩, ⟨0, true⟩)
    ∧ ((my_free (my_alloc (my_alloc initialize_table 100).2 12288).2 (1 * MY_PAGE_SIZE)).bind
        (fun t3 => my_realloc t3 initialize_memory 0 8192)).map (fun r => (r.1, r.2.1 2))
      = some (some 0, ⟨0, false⟩)
    ∧ (my_realloc (my_alloc initialize_table 12288).2 initialize_memory 0 4097).map
        (fun r => (r.2.1 0, r.2.1 1, r.2.1 2, run_pages r.2.1 0))
      = some (⟨1, true⟩, ⟨0, false⟩, ⟨0, false⟩, [0, 1])
    ∧ ((my_realloc (my_alloc initialize_table 12288).2 initialize_memory 0 4097).bind
        (fun r => my_realloc r.2.1 r.2.2 0 12288)).map
        (fun r2 => (r2.1, r2.2.1 0, run_pages (sanity_check r2.2.1) 0))
      = some (some 0, ⟨1, true⟩, [0, 1, 2]) := by
  decide

/-! ## `sanity_check` -/

/-- C17. `sanity_check` establishes invariants 1 and 2 and nothing else: after
it every page with `used_memory = 0` and the last page have
`consecutive = false`, every `used_memory` is unchanged, the flag of every page
with `used_memory ≠ 0` other than the last page is unchanged, and a second
`sanity_check` changes nothing. -/
theorem sanity_check_establishes_invariants (t : Table) :
    (∀ i, i < MY_NUMBER_OF_PAGES → (t i).used_memory = 0 →
        (sanity_check t i).consecutive = false)
      ∧ (sanity_check t (MY_NUMBER_OF_PAGES - 1)).consecutive = false
      ∧ (∀ i, (sanity_check t i).used_memory = (t i).used_memory)
      ∧ (∀ i, (t i).used_memory ≠ 0 → i ≠ MY_NUMBER_OF_PAGES - 1 →
          (sanity_check t i).consecutive = (t i).consecutive)
      ∧ sanity_check (sanity_check t) = sanity_check t := by
  refine ⟨?_, sanity_check_invariant_2 t, sanity_check_used t, ?_, sanity_check_idem t⟩
  · intro i hi hu
    rw [sanity_check_consecutive, if_pos (Or.inr ⟨hi, hu⟩)]
  · intro i hu hi
    have : ¬ (i = MY_NUMBER_OF_PAGES - 1 ∨ (i < MY_NUMBER_OF_PAGES ∧ (t i).used_memory = 0)) := by
      intro h
      rcases h with h | h
      · exact hi h
      · exact hu h.2
    rw [sanity_check_consecutive, if_neg this]

/-! ## `my_memcpy` -/

theorem set_byte_apply (m : Memory) (a v b : Nat) :
    set_byte m a v b = if b = a then v else m b := rfl

theorem copy_ascending_spec (d s : Nat) (hds : d < s) (k : Nat) :
    ∀ (i : Nat) (m : Memory), s + i + k ≤ MY_MEMORY_SIZE →
      ∃ m2, copy_ascending d s k i m = some m2
        ∧ (∀ j, i ≤ j → j < i + k → m2 (d + j) = m (s + j))
        ∧ (∀ a, (a < d + i ∨ d + i + k ≤ a) → m2 a = m a) := by
  induction k with
  | zero =>
    intro i m _
    exact ⟨m, rfl, fun j h1 h2 => by omega, fun a _ => rfl⟩
  | succ k ih =>
    intro i m hb
    have hin : s + i < MY_MEMORY_SIZE ∧ d + i < MY_MEMORY_SIZE := by omega
    obtain ⟨m2, h1, h2, h3⟩ := ih (i + 1) (set_byte m (d + i) (m (s + i))) (by omega)
    refine ⟨m2, ?_, ?_, ?_⟩
    · rw [copy_ascending, if_pos hin, h1]
    · intro j hj1 hj2
      by_cases e : j = i
      · subst e
        rw [h3 (d + j) (by omega), set_byte_apply, if_pos rfl]
      · rw [h2 j (by omega) (by omega), set_byte_apply, if_neg (by omega)]
    · intro a ha
      rw [h3 a (by omega), set_byte_apply, if_neg (by omega)]

theorem copy_descending_spec (d s : Nat) (hds : s ≤ d) (k : Nat) :
    ∀ (m : Memory), d + k ≤ MY_MEMORY_SIZE →
      ∃ m2, copy_descending d s k m = some m2
        ∧ (∀ j, j < k → m2 (d + j) = m (s + j))
        ∧ (∀ a, (a < d ∨ d + k ≤ a) → m2 a = m a) := by
  induction k with
  | zero =>
    intro m _
    exact ⟨m, rfl, fun j h => by omega, fun a _ => rfl⟩
  | succ k ih =>
    intro m hb
    have hin : s + k < MY_MEMORY_SIZE ∧ d + k < MY_MEMORY_SIZE := by omega
    obtain ⟨m2, h1, h2, h3⟩ := ih (set_byte m (d + k) (m (s + k))) (by omega)
    refine ⟨m2, ?_, ?_, ?_⟩
    · rw [copy_descending, if_pos hin, h1]
    · intro j hj
      by_cases e : j = k
      · subst e
        rw [h3 (d + j) (by omega), set_byte_apply, if_pos rfl]
      · rw [h2 j (by omega), set_byte_apply, if_neg (by omega)]
    · intro a ha
      rw [h3 a (by omega), set_byte_apply, if_neg (by omega)]

theorem my_memcpy_spec (m : Memory) (d s n : Nat)
    (hd : d + n ≤ MY_MEMORY_SIZE) (hs : s + n ≤ MY_MEMORY_SIZE) :
    ∃ m2, my_memcpy m (some d) (some s) (n : Int) = some m2
      ∧ (∀ i, i < n → m2 (d + i) = m (s + i))
      ∧ (∀ a, (a < d ∨ d + n ≤ a) → m2 a = m a) := by
  unfold my_memcpy
  simp only [Int.toNat_ofNat]
  by_cases h0 : (n : Int) = 0
  · rw [if_pos h0]
    exact ⟨m, rfl, fun i hi => by omega, fun a _ => rfl⟩
  · rw [if_neg h0]
    by_cases hlt : d < s
    · rw [if_pos hlt]
      obtain ⟨m2, h1, h2, h3⟩ := copy_ascending_spec d s hlt n 0 m (by omega)
      exact ⟨m2, h1, fun i hi => h2 i (Nat.zero_le _) (by omega),
        fun a ha => h3 a (by omega)⟩
    · rw [if_neg hlt]
      exact copy_descending_spec d s (by omega) n m hd

/-- C18. `my_memcpy` has overlapping-move semantics: when both `n`-byte ranges
lie inside the arena, the call returns, afterwards the byte at
`destination + i` is the byte that was at `source + i` for every `i < n`, and
every byte outside the destination range is unchanged; with `n = 0` or a null
pointer the arena is unchanged. -/
theorem my_memcpy_overlapping_move (m : Memory) (d s n : Nat)
    (hd : d + n ≤ MY_MEMORY_SIZE) (hs : s + n ≤ MY_MEMORY_SIZE) :
    (∃ m2, my_memcpy m (some d) (some s) (n : Int) = some m2
        ∧ (∀ i, i < n → m2 (d + i) = m (s + i))
        ∧ (∀ a, (a < d ∨ d + n ≤ a) → m2 a = m a))
      ∧ (∀ (x y : Option Nat), my_memcpy m x y 0 = some m)
      ∧ (∀ (x : Option Nat) (k : Int),
          my_memcpy m none x k = some m ∧ my_memcpy m x none k = some m) := by
  refine ⟨my_memcpy_spec m d s n hd hs, ?_, ?_⟩
  · intro x y
    unfold my_memcpy
    cases x <;> cases y <;> simp
  · intro x k
    unfold my_memcpy
    cases x <;> simp

/-- Witness for C18: two overlapping ranges of 4096 bytes, the destination 100
bytes above the source. -/
theorem my_memcpy_overlapping_move_witness :
    ∃ m2, my_memcpy (fun a => a % 251) (some 1100) (some 1000) ((4096 : Nat) : Int) = some m2
      ∧ (∀ i, i < 4096 → m2 (1100 + i) = (1000 + i) % 251)
      ∧ (∀ a, (a < 1100 ∨ 1100 + 4096 ≤ a) → m2 a = a % 251) :=
  (my_memcpy_overlapping_move (fun a => a % 251) 1100 1000 4096 (by decide) (by decide)).1

/-! ## The run walk stops at the last page -/

theorem free_loop_terminates (d : Nat) : ∀ (fuel p : Nat) (t : Table),
    p + d = MY_NUMBER_OF_PAGES - 1 → d + 1 ≤ fuel →
    (t (MY_NUMBER_OF_PAGES - 1)).consecutive = false →
    ∃ t2, free_loop fuel p t = some t2 ∧ ∀ x, MY_NUMBER_OF_PAGES ≤ x → t2 x = t x := by
  induction d with
  | zero =>
    intro fuel p t hp hf hlast
    have hP : MY_NUMBER_OF_PAGES = 16 := rfl
    obtain ⟨f, rfl⟩ : ∃ f, fuel = f + 1 := ⟨fuel - 1, by omega⟩
    have hp2 : p < MY_NUMBER_OF_PAGES := by omega
    have hp3 : p = MY_NUMBER_OF_PAGES - 1 := by omega
    have hc : ¬ ((set_used t p 0 p).consecutive = true) := by
      rw [set_used_apply, if_pos rfl, hp3, hlast]
      exact Bool.false_ne_true
    refine ⟨set_used t p 0, ?_, ?_⟩
    · simp only [free_loop, if_pos hp2, if_neg hc]
    · intro x hx
      rw [set_used_apply, if_neg (by omega)]
  | succ d ih =>
    intro fuel p t hp hf hlast
    have hP : MY_NUMBER_OF_PAGES = 16 := rfl
    obtain ⟨f, rfl⟩ : ∃ f, fuel = f + 1 := ⟨fuel - 1, by omega⟩
    have hp2 : p < MY_NUMBER_OF_PAGES := by omega
    by_cases hc : (set_used t p 0 p).consecutive = true
    · obtain ⟨t2, h1, h2⟩ := ih f (p + 1) (set_used t p 0) (by omega) (by omega)
        (by rw [set_used_apply, if_neg (by omega)]; exact hlast)
      refine ⟨t2, ?_, ?_⟩
      · simp only [free_loop, if_pos hp2, if_pos hc]
        exact h1
      · intro x hx
        rw [h2 x hx, set_used_apply, if_neg (by omega)]
    · refine ⟨set_used t p 0, ?_, ?_⟩
      · simp only [free_loop, if_pos hp2, if_neg hc]
      · intro x hx
        rw [set_used_apply, if_neg (by omega)]

theorem realloc_walk_terminates (t : Table) (d : Nat) : ∀ (fuel p c : Nat),
    p + d = MY_NUMBER_OF_PAGES - 1 → d + 1 ≤ fuel →
    (t (MY_NUMBER_OF_PAGES - 1)).consecutive = false →
    ∃ last n, realloc_walk t fuel p c = some (last, n)
      ∧ p ≤ last ∧ last < MY_NUMBER_OF_PAGES ∧ n = c + (last - p) + 1
      ∧ (∀ x, p ≤ x → x < last → (t x).consecutive = true)
      ∧ (t last).consecutive = false := by
  induction d with
  | zero =>
    intro fuel p c hp hf hlast
    have hP : MY_NUMBER_OF_PAGES = 16 := rfl
    obtain ⟨f, rfl⟩ : ∃ f, fuel = f + 1 := ⟨fuel - 1, by omega⟩
    have hp2 : p < MY_NUMBER_OF_PAGES := by omega
    have hp3 : p = MY_NUMBER_OF_PAGES - 1 := by omega
    have hc : ¬ ((t p).consecutive = true) := by
      rw [hp3, hlast]
      exact Bool.false_ne_true
    refine ⟨p, c + 1, ?_, le_refl _, hp2, by omega, fun x h1 h2 => by omega, ?_⟩
    · simp only [realloc_walk, if_pos hp2, if_neg hc]
    · rw [hp3]; exact hlast
  | succ d ih =>
    intro fuel p c hp hf hlast
    have hP : MY_NUMBER_OF_PAGES = 16 := rfl
    obtain ⟨f, rfl⟩ : ∃ f, fuel = f + 1 := ⟨fuel - 1, by omega⟩
    have hp2 : p < MY_NUMBER_OF_PAGES := by omega
    by_cases hc : (t p).consecutive = true
    · obtain ⟨last, n, h1, h2, h3, h4, h5, h6⟩ := ih f (p + 1) (c + 1) (by omega) (by omega) hlast
      refine ⟨last, n, ?_, by omega, h3, by omega, ?_, h6⟩
      · simp only [realloc_walk, if_pos hp2, if_pos hc]
        exact h1
      · intro x hx1 hx2
        by_cases e : x = p
        · rw [e]; exact hc
        · exact h5 x (by omega) hx2
    · refine ⟨p, c + 1, ?_, le_refl _, hp2, by omega, fun x h1 h2 => by omega, ?_⟩
      · simp only [realloc_walk, if_pos hp2, if_neg hc]
      · simpa using hc

theorem sanity_check_outside (t : Table) (x : Nat) (hx : MY_NUMBER_OF_PAGES ≤ x) :
    sanity_check t x = t x := by
  apply memory_page_ext
  · exact sanity_check_used t x
  · have : ¬ (x = MY_NUMBER_OF_PAGES - 1 ∨ (x < MY_NUMBER_OF_PAGES ∧ (t x).used_memory = 0)) := by
      have hP : MY_NUMBER_OF_PAGES = 16 := rfl
      omega
    rw [sanity_check_consecutive, if_neg this]

/-- C19. The run walk is bounded by the sentinel: for every descriptor table
and every pointer whose page index is below `P`, the walk of `my_free` and the
walk at the start of `my_realloc`, performed after `sanity_check`, end at a
page below `P` without leaving the table (the operation returns), and nothing
at an index outside the table is written. -/
theorem run_walk_bounded_by_sentinel (t : Table) (ptr : Nat)
    (hp : ptr / MY_PAGE_SIZE < MY_NUMBER_OF_PAGES) :
    (∃ t2, my_free t ptr = some t2 ∧ ∀ x, MY_NUMBER_OF_PAGES ≤ x → t2 x = t x)
      ∧ (∃ last n, realloc_walk (sanity_check t) (MY_NUMBER_OF_PAGES + 1)
            (ptr / MY_PAGE_SIZE) 0 = some (last, n)
          ∧ ptr / MY_PAGE_SIZE ≤ last ∧ last < MY_NUMBER_OF_PAGES) := by
  have hP : MY_NUMBER_OF_PAGES = 16 := rfl
  unfold my_free
  generalize ptr / MY_PAGE_SIZE = p at hp ⊢
  constructor
  · obtain ⟨t2, h1, h2⟩ := free_loop_terminates (15 - p)
      (MY_NUMBER_OF_PAGES + 1) p (sanity_check t) (by omega) (by omega)
      (sanity_check_invariant_2 t)
    refine ⟨t2, h1, ?_⟩
    intro x hx
    rw [h2 x hx, sanity_check_outside t x hx]
  · obtain ⟨last, n, h1, h2, h3, _⟩ := realloc_walk_terminates (sanity_check t)
      (15 - p) (MY_NUMBER_OF_PAGES + 1) p 0 (by omega) (by omega)
      (sanity_check_invariant_2 t)
    exact ⟨last, n, h1, h2, h3⟩

/-- Witness for C19: a table in which every page is flagged `consecutive`,
walked from page 0. -/
theorem run_walk_bounded_by_sentinel_witness :
    (∃ t2, my_free (fun _ => ⟨3, true⟩) 0 = some t2
        ∧ ∀ x, MY_NUMBER_OF_PAGES ≤ x → t2 x = (fun _ => ⟨3, true⟩ : Table) x)
      ∧ (∃ last n, realloc_walk (sanity_check (fun _ => ⟨3, true⟩)) (MY_NUMBER_OF_PAGES + 1)
            (0 / MY_PAGE_SIZE) 0 = some (last, n)
          ∧ 0 / MY_PAGE_SIZE ≤ last ∧ last < MY_NUMBER_OF_PAGES) :=
  run_walk_bounded_by_sentinel (fun _ => ⟨3, true⟩) 0 (by decide)

/-! ## `my_realloc`: relocation -/

theorem my_realloc_relocate_eq (t : Table) (m : Memory) (ptr size last n : Nat) (req : Int)
    (hreq : to_int (size / (MY_PAGE_SIZE * MY_ALIGNMENT)) = req)
    (hwalk : realloc_walk (sanity_check t) (MY_NUMBER_OF_PAGES + 1) (ptr / MY_PAGE_SIZE) 0
      = some (last, n))
    (hne : ¬ req = (n : Int)) (hnlt : ¬ req < (n : Int))
    (hfol : ¬ realloc_following (sanity_check t) (req - n) (MY_NUMBER_OF_PAGES + 1) (last + 1) 0
      = req - n)
    (hsum : ¬ (realloc_following (sanity_check t) (req - n) (MY_NUMBER_OF_PAGES + 1)
        (last + 1) 0
      + realloc_previous (sanity_check t) (req - n) (MY_NUMBER_OF_PAGES + 1)
        (((ptr / MY_PAGE_SIZE : Nat) : Int) - 1) 0 ≥ req - n))
    (np : Nat) (t1 : Table) (halloc : my_alloc (sanity_check t) size = (some np, t1)) :
    my_realloc t m ptr size =
      match my_memcpy m (some (np * MY_ALIGNMENT)) (some (ptr * MY_ALIGNMENT)) (to_int size) with
      | none => none
      | some m1 =>
        match my_free t1 ptr with
        | none => none
        | some t2 => some (some np, t2, m1) := by
  unfold my_realloc
  simp only [hreq, hwalk, if_neg hne, if_neg hnlt, if_neg hfol, if_neg hsum, halloc]

theorem copy_ascending_leaves_arena (d s : Nat) (k : Nat) :
    ∀ (i : Nat) (m : Memory), 0 < k → MY_MEMORY_SIZE < s + i + k →
      copy_ascending d s k i m = none := by
  induction k with
  | zero => intro i m h; omega
  | succ k ih =>
    intro i m _ hb
    rw [copy_ascending]
    by_cases hin : s + i < MY_MEMORY_SIZE ∧ d + i < MY_MEMORY_SIZE
    · rw [if_pos hin]
      exact ih (i + 1) _ (by omega) (by omega)
    · rw [if_neg hin]

set_option maxRecDepth 20000 in
/-- C13. The code at the failing input: after `initialize`,
`a = my_alloc 57344`, `my_alloc 100`, `c = my_alloc 100` and `my_free a`, the
run `c` is page 15 and can grow neither forward nor backward, and a fresh run
of two pages is available at page 0; `my_realloc c 8192` then copies 8192
bytes starting at page 15, which leaves the arena after 4096 bytes. -/
theorem my_realloc_relocation_reads_past_arena :
    ∃ t, state_run_on_last_page = some t
      ∧ run_pages (sanity_check t) 15 = [15]
      ∧ (t 14).used_memory = 100
      ∧ (my_alloc (sanity_check t) 8192).1 = some 0
      ∧ ∀ m, my_realloc t m (15 * MY_PAGE_SIZE) 8192 = none := by
  cases h : state_run_on_last_page with
  | none =>
    have hsome : state_run_on_last_page.isSome = true := by decide
    rw [h] at hsome
    exact absurd hsome (by simp)
  | some t =>
    have h1 : state_run_on_last_page.map (fun t => run_pages (sanity_check t) 15)
        = some [15] := by decide
    have h2 : state_run_on_last_page.map (fun t => (t 14).used_memory) = some 100 := by decide
    have h3 : state_run_on_last_page.map (fun t => (my_alloc (sanity_check t) 8192).1)
        = some (some 0) := by decide
    have h4 : state_run_on_last_page.map (fun t =>
        realloc_walk (sanity_check t) (MY_NUMBER_OF_PAGES + 1) (15 * MY_PAGE_SIZE / MY_PAGE_SIZE) 0)
        = some (some (15, 1)) := by decide
    have h5 : state_run_on_last_page.map (fun t =>
        realloc_following (sanity_check t) (2 - (1 : Nat)) (MY_NUMBER_OF_PAGES + 1) (15 + 1) 0)
        = some 0 := by decide
    have h6 : state_run_on_last_page.map (fun t =>
        realloc_previous (sanity_check t) (2 - (1 : Nat)) (MY_NUMBER_OF_PAGES + 1)
          (((15 * MY_PAGE_SIZE / MY_PAGE_SIZE : Nat) : Int) - 1) 0)
        = some 0 := by decide
    rw [h] at h1 h2 h3 h4 h5 h6
    simp only [Option.map_some', Option.some.injEq] at h1 h2 h3 h4 h5 h6
    refine ⟨t, rfl, h1, h2, h3, ?_⟩
    intro m
    have halloc : my_alloc (sanity_check t) 8192
        = (some 0, (my_alloc (sanity_check t) 8192).2) := by
      rw [← h3]
    rw [my_realloc_relocate_eq t m (15 * MY_PAGE_SIZE) 8192 15 1 2 (by decide) h4 (by decide)
      (by decide) (by rw [h5]; decide) (by rw [h5, h6]; decide) 0 _ halloc]
    have hcopy : my_memcpy m (some (0 * MY_ALIGNMENT)) (some (15 * MY_PAGE_SIZE * MY_ALIGNMENT))
        (to_int 8192) = none := by
      have e : to_int 8192 = ((8192 : Nat) : Int) := to_int_of_lt 8192 (by decide)
      rw [e]
      unfold my_memcpy
      simp only [Int.toNat_ofNat]
      rw [if_neg (by decide), if_pos (by decide)]
      exact copy_ascending_leaves_arena _ _ 8192 0 m (by decide) (by decide)
    rw [hcopy]

set_option maxRecDepth 20000 in
/-- C14. The code at the failing input: `p = my_alloc 12288` creates a run of
three pages, each with 4096 bytes; `my_realloc p 4096` returns `p`, and
`my_realloc p 12288` returns `p` again with a run that walks pages 0, 1 and 2,
but its terminal page 2 has `used_memory = 0`. -/
theorem my_realloc_shrink_then_grow_12288 :
    (my_alloc initialize_table 12288).1 = some 0
      ∧ run_pages (my_alloc initialize_table 12288).2 0 = [0, 1, 2]
      ∧ ([0, 1, 2].map fun i => ((my_alloc initialize_table 12288).2 i).used_memory)
          = [4096, 4096, 4096]
      ∧ (my_realloc (my_alloc initialize_table 12288).2 initialize_memory 0 4096).map
          (fun r => r.1) = some (some 0)
      ∧ ((my_realloc (my_alloc initialize_table 12288).2 initialize_memory 0 4096).bind
          (fun r => my_realloc r.2.1 r.2.2 0 12288)).map
          (fun r2 => (r2.1, run_pages (sanity_check r2.2.1) 0,
            [0, 1, 2].map fun i => (r2.2.1 i).used_memory))
        = some (some 0, [0, 1, 2], [4096, 4096, 0]) := by
  decide

set_option maxRecDepth 20000 in
/-- C16. The code at the failing input: after `initialize`, `my_alloc 100`
returns page 0 with `used_memory = 100`, the second `my_alloc 100` returns
page 1, `my_free` of the first pointer zeroes only page 0, and
`my_alloc 12289` returns page 2 with a run of the three pages 2, 3 and 4, the
last one charged 4097 bytes; page 5 stays free and page 1 is untouched. -/
theorem scenario_alloc_12289_takes_three_pages :
    (my_alloc initialize_table 100).1 = some 0
      ∧ (my_alloc initialize_table 100).2 0 = ⟨100, false⟩
      ∧ (my_alloc (my_alloc initialize_table 100).2 100).1 = some (1 * MY_PAGE_SIZE)
      ∧ (my_free (my_alloc (my_alloc initialize_table 100).2 100).2 0).map
          (fun t => (List.range 16).map fun i => (t i).used_memory)
        = some [0, 100, 0, 0, 0, 0, 0, 0, 0, 0, 0, 0, 0, 0, 0, 0]
      ∧ (my_free (my_alloc (my_alloc initialize_table 100).2 100).2 0).map
          (fun t => ((my_alloc t 12289).1, run_pages (my_alloc t 12289).2 2,
            (List.range 16).map fun i => ((my_alloc t 12289).2 i).used_memory))
        = some (some (2 * MY_PAGE_SIZE), [2, 3, 4],
            [0, 100, 4096, 4096, 4097, 0, 0, 0, 0, 0, 0, 0, 0, 0, 0, 0]) := by
  decide

set_option maxRecDepth 20000 in
/-- C20. The code at the failing input: after `initialize`, `a = my_alloc 100`
(page 0) and `b = my_alloc 100` (page 1) the table satisfies invariants 1 and
2; `my_realloc b 50` returns `b`, frees page 1 and overwrites the
`used_memory` of page 0, which belongs to `a`, with 50; and `my_realloc a 50`
accesses the descriptor at index -1. -/
theorem my_realloc_below_one_page :
    invariant_1 (my_alloc (my_alloc initialize_table 100).2 100).2
      ∧ invariant_2 (my_alloc (my_alloc initialize_table 100).2 100).2
      ∧ (my_alloc initialize_table 100).1 = some 0
      ∧ (my_alloc (my_alloc initialize_table 100).2 100).1 = some (1 * MY_PAGE_SIZE)
      ∧ (my_alloc (my_alloc initialize_table 100).2 100).2 0 = ⟨100, false⟩
      ∧ run_pages (my_alloc (my_alloc initialize_table 100).2 100).2 1 = [1]
      ∧ (my_realloc (my_alloc (my_alloc initialize_table 100).2 100).2 initialize_memory
          (1 * MY_PAGE_SIZE) 50).map (fun r => (r.1, r.2.1 0, r.2.1 1))
        = some (some (1 * MY_PAGE_SIZE), ⟨50, false⟩, ⟨0, false⟩)
      ∧ (realloc_shrink 1 0 (sanity_check (my_alloc (my_alloc initialize_table 100).2 100).2)).map
          (fun r => r.1) = some (-1)
      ∧ (my_realloc (my_alloc (my_alloc initialize_table 100).2 100).2 initialize_memory
          0 50).isNone = true := by
  decide

/-! ## Free, then allocate again -/

theorem alloc_single_cases (size : Nat) (t : Table) (k : Nat) : ∀ (i0 : Nat),
    (∃ i, i0 ≤ i ∧ i < i0 + k ∧ (t i).used_memory = 0
        ∧ alloc_single size t k i0 =
            (some (i * MY_PAGE_SIZE), set_consecutive (set_used t i size) i false))
      ∨ alloc_single size t k i0 = (none, t) := by
  induction k with
  | zero => intro i0; right; rfl
  | succ k ih =>
    intro i0
    rw [alloc_single]
    by_cases hu : (t i0).used_memory = 0
    · left
      exact ⟨i0, le_refl _, by omega, hu, by rw [if_pos hu]⟩
    · rw [if_neg hu]
      rcases ih (i0 + 1) with ⟨i, h1, h2, h3, h4⟩ | h
      · left
        exact ⟨i, by omega, by omega, h3, h4⟩
      · right
        exact h

theorem alloc_multi_nonpos (size : Nat) (required : Int) (hr : required ≤ 0) (t : Table)
    (k : Nat) : ∀ (i start : Nat) (addr : Option Nat) (cnt : Int), 0 ≤ cnt →
      alloc_multi size required t k i start addr cnt = (none, t) := by
  induction k with
  | zero => intro i start addr cnt _; rfl
  | succ k ih =>
    intro i start addr cnt hc
    simp only [alloc_multi]
    by_cases hu : (t i).used_memory ≠ 0
    · rw [if_pos hu]
      exact ih _ _ _ 0 (le_refl _)
    · have hfin : ¬ (cnt + 1 = required) := by omega
      rw [if_neg hu, if_neg hfin]
      exact ih _ _ _ (cnt + 1) (by omega)

theorem alloc_single_ptr_congr (size : Nat) (t u : Table)
    (h : ∀ j, (t j).used_memory = (u j).used_memory) (k : Nat) : ∀ (i : Nat),
    (alloc_single size t k i).1 = (alloc_single size u k i).1 := by
  induction k with
  | zero => intro i; rfl
  | succ k ih =>
    intro i
    rw [alloc_single, alloc_single, ← h i]
    by_cases hu : (t i).used_memory = 0
    · rw [if_pos hu, if_pos hu]
    · rw [if_neg hu, if_neg hu]
      exact ih (i + 1)

theorem alloc_multi_ptr_congr (size : Nat) (required : Int) (t u : Table)
    (h : ∀ j, (t j).used_memory = (u j).used_memory) (k : Nat) :
    ∀ (i start : Nat) (addr : Option Nat) (cnt : Int),
      (alloc_multi size required t k i start addr cnt).1
        = (alloc_multi size required u k i start addr cnt).1 := by
  induction k with
  | zero => intro i start addr cnt; rfl
  | succ k ih =>
    intro i start addr cnt
    simp only [alloc_multi]
    rw [← h i]
    by_cases hu : (t i).used_memory ≠ 0
    · rw [if_pos hu, if_pos hu]
      exact ih _ _ _ _
    · rw [if_neg hu, if_neg hu]
      by_cases hfin : cnt + 1 = required
      · rw [if_pos hfin, if_pos hfin]
      · rw [if_neg hfin, if_neg hfin]
        exact ih _ _ _ _

theorem my_alloc_ptr_congr (t u : Table) (size : Nat)
    (h : ∀ j, (t j).used_memory = (u j).used_memory) :
    (my_alloc t size).1 = (my_alloc u size).1 := by
  have h2 : ∀ j, (sanity_check t j).used_memory = (sanity_check u j).used_memory := by
    intro j
    rw [sanity_check_used, sanity_check_used, h j]
  unfold my_alloc
  simp only
  by_cases hs : size ≤ MY_PAGE_SIZE * MY_ALIGNMENT
  · rw [if_pos hs, if_pos hs]
    exact alloc_single_ptr_congr size _ _ h2 _ _
  · rw [if_neg hs, if_neg hs]
    by_cases hr : to_int (size / (MY_PAGE_SIZE * MY_ALIGNMENT)) > MY_NUMBER_OF_PAGES
    · rw [if_pos hr, if_pos hr]
    · rw [if_neg hr, if_neg hr]
      exact alloc_multi_ptr_congr size _ _ _ h2 _ _ _ _ _

theorem my_alloc_success_shape (t : Table) (size p : Nat)
    (h : (my_alloc t size).1 = some p) :
    ∃ s n last, 1 ≤ n ∧ s + n ≤ MY_NUMBER_OF_PAGES ∧ p = s * MY_PAGE_SIZE
      ∧ free_window t s n
      ∧ (my_alloc t size).2 = mark_run (sanity_check t) s n last := by
  have hP : MY_NUMBER_OF_PAGES = 16 := rfl
  unfold my_alloc at h ⊢
  simp only at h ⊢
  by_cases hs : size ≤ MY_PAGE_SIZE * MY_ALIGNMENT
  · rw [if_pos hs] at h ⊢
    rcases alloc_single_cases size (sanity_check t) MY_NUMBER_OF_PAGES 0
      with ⟨i, _, h2, h3, h4⟩ | h4
    · rw [h4] at h ⊢
      simp only [Option.some.injEq] at h
      refine ⟨i, 1, size, le_refl _, by omega, h.symm, ?_, ?_⟩
      · intro j hj
        have : j = 0 := by omega
        rw [this, Nat.add_zero, ← sanity_check_used]
        exact h3
      · funext x
        unfold mark_run
        by_cases hx : x = i
        · have hx2 : x = i + 1 - 1 := by omega
          simp only [set_consecutive_apply, set_used_apply, if_pos hx, if_pos hx2]
        · have hx2 : ¬ x = i + 1 - 1 := by omega
          have hx3 : ¬ (i ≤ x ∧ x < i + 1 - 1) := by omega
          simp only [set_consecutive_apply, set_used_apply, if_neg hx, if_neg hx2, if_neg hx3]
    · rw [h4] at h
      exact absurd h (by simp)
  · rw [if_neg hs] at h ⊢
    by_cases hr : to_int (size / (MY_PAGE_SIZE * MY_ALIGNMENT)) > MY_NUMBER_OF_PAGES
    · rw [if_pos hr] at h
      exact absurd h (by simp)
    · rw [if_neg hr] at h ⊢
      by_cases hpos : to_int (size / (MY_PAGE_SIZE * MY_ALIGNMENT)) ≤ 0
      · rw [alloc_multi_nonpos size _ hpos _ _ _ _ _ _ (le_refl _)] at h
        exact absurd h (by simp)
      · obtain ⟨n, hn⟩ : ∃ n : Nat, to_int (size / (MY_PAGE_SIZE * MY_ALIGNMENT)) = (n : Int) :=
          ⟨(to_int (size / (MY_PAGE_SIZE * MY_ALIGNMENT))).toNat, by omega⟩
        rw [hn] at h hr hpos ⊢
        have hn1 : 1 ≤ n := by omega
        rcases alloc_multi_spec size n hn1 (sanity_check t) MY_NUMBER_OF_PAGES 0 0 0 none
            (by omega) (by omega) (by omega) (by simp)
            (fun j _ hj => by omega) (fun s hs => by omega)
          with ⟨s, hs1, hs2, _, hs4⟩ | ⟨_, hres⟩
        · have hs4b : alloc_multi size (n : Int) (sanity_check t) MY_NUMBER_OF_PAGES 0 0 none 0
              = (some (s * MY_PAGE_SIZE),
                mark_run (sanity_check t) s n (to_size_t ((size : Int)
                  - ((n : Int) - 1) * MY_ALIGNMENT * MY_PAGE_SIZE))) := hs4
          rw [hs4b] at h ⊢
          simp only [Option.some.injEq] at h
          exact ⟨s, n, _, hn1, hs1, h.symm, (free_window_sanity_check t s n).1 hs2, rfl⟩
        · have hresb : alloc_multi size (n : Int) (sanity_check t) MY_NUMBER_OF_PAGES 0 0 none 0
              = (none, sanity_check t) := hres
          rw [hresb] at h
          exact absurd h (by simp)

theorem my_free_mark_run (t0 : Table) (s n last : Nat) (hn : 1 ≤ n)
    (hs : s + n ≤ MY_NUMBER_OF_PAGES) :
    ∃ t3, my_free (mark_run t0 s n last) (s * MY_PAGE_SIZE) = some t3
      ∧ ∀ x, (t3 x).used_memory = if s ≤ x ∧ x < s + n then 0 else (t0 x).used_memory := by
  have hP : MY_NUMBER_OF_PAGES = 16 := rfl
  have hp : s * MY_PAGE_SIZE / MY_PAGE_SIZE = s := Nat.mul_div_cancel s (by decide)
  have hfull : ∀ i, i < n - 1 →
      mark_run t0 s n last (s + i) = ⟨MY_PAGE_SIZE * MY_ALIGNMENT, true⟩ := by
    intro i hi
    unfold mark_run
    rw [if_neg (by omega), if_pos (by omega)]
  have hend : (mark_run t0 s n last (s + (n - 1))).consecutive = false := by
    unfold mark_run
    rw [if_pos (by omega)]
  have hrun := free_loop_run (n - 1) (MY_NUMBER_OF_PAGES + 1) s
    (sanity_check (mark_run t0 s n last)) (by omega) (by omega)
    (fun i hi => by
      rw [sanity_check_full_page _ (s + i) (by omega) (hfull i hi)])
    (sanity_check_consecutive_false _ _ hend)
  refine ⟨fun x =>
      if s ≤ x ∧ x ≤ s + (n - 1) then
        ⟨0, (sanity_check (mark_run t0 s n last) x).consecutive⟩
      else sanity_check (mark_run t0 s n last) x, ?_, ?_⟩
  · unfold my_free
    simp only [hp]
    exact hrun
  · intro x
    by_cases hx : s ≤ x ∧ x < s + n
    · have hx2 : s ≤ x ∧ x ≤ s + (n - 1) := by omega
      simp only [if_pos hx, if_pos hx2]
    · have hx2 : ¬ (s ≤ x ∧ x ≤ s + (n - 1)) := by omega
      simp only [if_neg hx, if_neg hx2]
      rw [sanity_check_used, mark_run_used_outside t0 s n last x hn (by omega)]

/-- C15. Free-then-reuse round trip: when `my_alloc t size` succeeds with
pointer `p` for a size above zero, `my_free p` returns and restores the
`used_memory` of every page to its value in `t`, and the next `my_alloc` of
the same size returns `p` again. -/
theorem my_alloc_free_then_reuse (t : Table) (size p : Nat) (_hsize : 0 < size)
    (h : (my_alloc t size).1 = some p) :
    ∃ t3, my_free (my_alloc t size).2 p = some t3
      ∧ (∀ x, (t3 x).used_memory = (t x).used_memory)
      ∧ (my_alloc t3 size).1 = some p := by
  obtain ⟨s, n, last, hn, hs, hp, hw, ht⟩ := my_alloc_success_shape t size p h
  obtain ⟨t3, h1, h2⟩ := my_free_mark_run (sanity_check t) s n last hn hs
  have hused : ∀ x, (t3 x).used_memory = (t x).used_memory := by
    intro x
    rw [h2 x]
    by_cases hx : s ≤ x ∧ x < s + n
    · rw [if_pos hx]
      have := hw (x - s) (by omega)
      rw [show s + (x - s) = x by omega] at this
      exact this.symm
    · rw [if_neg hx, sanity_check_used]
  refine ⟨t3, ?_, hused, ?_⟩
  · rw [ht, hp]
    exact h1
  · rw [my_alloc_ptr_congr t3 t size hused]
    exact h

/-- Witness for C15: a request of two pages on a table whose pages 0 and 2 are
occupied lands on pages 3 and 4. -/
theorem my_alloc_free_then_reuse_witness :
    ∃ t3, my_free (my_alloc (fun i => if i = 0 ∨ i = 2 then ⟨9, false⟩ else ⟨0, false⟩) 8197).2
          (3 * MY_PAGE_SIZE) = some t3
      ∧ (∀ x, (t3 x).used_memory
          = ((fun i => if i = 0 ∨ i = 2 then ⟨9, false⟩ else ⟨0, false⟩ : Table) x).used_memory)
      ∧ (my_alloc t3 8197).1 = some (3 * MY_PAGE_SIZE) :=
  my_alloc_free_then_reuse (fun i => if i = 0 ∨ i = 2 then ⟨9, false⟩ else ⟨0, false⟩) 8197
    (3 * MY_PAGE_SIZE) (by decide) (by decide)

/-! ## `my_realloc`: growing backward -/

theorem realloc_following_count (t : Table) (page_difference : Int) (f : Nat) :
    ∀ (fuel i : Nat) (c : Int),
      f + 1 ≤ fuel → i + f ≤ MY_NUMBER_OF_PAGES →
      (∀ j, j < f → (t (i + j)).used_memory = 0) →
      (i + f = MY_NUMBER_OF_PAGES ∨ (t (i + f)).used_memory ≠ 0 ∨ c + f = page_difference) →
      c + f ≤ page_difference →
      realloc_following t page_difference fuel i c = c + f := by
  induction f with
  | zero =>
    intro fuel i c hf _ _ hstop _
    obtain ⟨g, rfl⟩ : ∃ g, fuel = g + 1 := ⟨fuel - 1, by omega⟩
    have hcond : ¬ (i < MY_NUMBER_OF_PAGES ∧ (t i).used_memory = 0 ∧ c < page_difference) := by
      intro h
      rcases hstop with h1 | h1 | h1
      · omega
      · exact h1 h.2.1
      · have := h.2.2
        omega
    simp only [realloc_following, if_neg hcond]
    omega
  | succ f ih =>
    intro fuel i c hf hi hfree hstop hle
    obtain ⟨g, rfl⟩ : ∃ g, fuel = g + 1 := ⟨fuel - 1, by omega⟩
    have hcond : i < MY_NUMBER_OF_PAGES ∧ (t i).used_memory = 0 ∧ c < page_difference := by
      refine ⟨by omega, ?_, by omega⟩
      have := hfree 0 (by omega)
      rw [Nat.add_zero] at this
      exact this
    simp only [realloc_following, if_pos hcond]
    rw [ih g (i + 1) (c + 1) (by omega) (by omega)
      (fun j hj => by
        have := hfree (j + 1) (by omega)
        rw [show i + 1 + j = i + (j + 1) by omega]
        exact this)
      (by
        rw [show i + 1 + f = i + (f + 1) by omega]
        rcases hstop with h1 | h1 | h1
        · exact Or.inl h1
        · exact Or.inr (Or.inl h1)
        · exact Or.inr (Or.inr (by push_cast at h1; omega)))
      (by push_cast at hle; omega)]
    push_cast
    omega

theorem realloc_previous_count (t : Table) (page_difference : Int) (p : Nat) :
    ∀ (fuel s : Nat) (c : Int),
      p + 1 ≤ fuel → p ≤ s →
      (∀ j, j < p → (t (s - 1 - j)).used_memory = 0) →
      (p = s ∨ (t (s - p - 1)).used_memory ≠ 0 ∨ c + p = page_difference) →
      c + p ≤ page_difference →
      realloc_previous t page_difference fuel ((s : Int) - 1) c = c + p := by
  induction p with
  | zero =>
    intro fuel s c hf _ _ hstop _
    obtain ⟨g, rfl⟩ : ∃ g, fuel = g + 1 := ⟨fuel - 1, by omega⟩
    have hcond : ¬ (0 ≤ (s : Int) - 1 ∧ (t ((s : Int) - 1).toNat).used_memory = 0
        ∧ c < page_difference) := by
      intro h
      rcases hstop with h1 | h1 | h1
      · omega
      · have e : ((s : Int) - 1).toNat = s - 0 - 1 := by omega
        rw [e] at h
        exact h1 h.2.1
      · have := h.2.2
        omega
    simp only [realloc_previous, if_neg hcond]
    omega
  | succ p ih =>
    intro fuel s c hf hs hfree hstop hle
    obtain ⟨g, rfl⟩ : ∃ g, fuel = g + 1 := ⟨fuel - 1, by omega⟩
    have hcond : 0 ≤ (s : Int) - 1 ∧ (t ((s : Int) - 1).toNat).used_memory = 0
        ∧ c < page_difference := by
      refine ⟨by omega, ?_, by omega⟩
      have := hfree 0 (by omega)
      have e : ((s : Int) - 1).toNat = s - 1 - 0 := by omega
      rw [e]
      exact this
    simp only [realloc_previous, if_pos hcond]
    have e : (s : Int) - 1 - 1 = ((s - 1 : Nat) : Int) - 1 := by omega
    rw [e, ih g (s - 1) (c + 1) (by omega) (by omega)
      (fun j hj => by
        have := hfree (j + 1) (by omega)
        rw [show s - 1 - 1 - j = s - 1 - (j + 1) by omega]
        exact this)
      (by
        rw [show s - 1 - p - 1 = s - (p + 1) - 1 by omega]
        rcases hstop with h1 | h1 | h1
        · exact Or.inl (by omega)
        · exact Or.inr (Or.inl h1)
        · exact Or.inr (Or.inr (by push_cast at h1; omega)))
      (by push_cast at hle; omega)]
    push_cast
    omega

theorem realloc_mark_previous_apply (page_number : Nat) (k : Nat) :
    ∀ (i : Nat) (t : Table), 1 ≤ i → i + k ≤ page_number + 1 →
      page_number < MY_NUMBER_OF_PAGES →
      realloc_mark_previous page_number k i t =
        some (fun x =>
          if page_number + 1 ≤ x + i + k ∧ x + i ≤ page_number then
            ⟨MY_ALIGNMENT * MY_PAGE_SIZE, true⟩
          else t x) := by
  induction k with
  | zero =>
    intro i t _ _ _
    rw [realloc_mark_previous]
    congr 1
    funext x
    have : ¬ (page_number + 1 ≤ x + i + 0 ∧ x + i ≤ page_number) := by omega
    rw [if_neg this]
  | succ k ih =>
    intro i t hi hb hpn
    have hin : i ≤ page_number ∧ page_number - i < MY_NUMBER_OF_PAGES := by omega
    rw [realloc_mark_previous, if_pos hin, ih (i + 1) _ (by omega) (by omega) hpn]
    congr 1
    funext x
    by_cases hx : x = page_number - i
    · have c1 : ¬ (page_number + 1 ≤ x + (i + 1) + k ∧ x + (i + 1) ≤ page_number) := by omega
      have c2 : page_number + 1 ≤ x + i + (k + 1) ∧ x + i ≤ page_number := by omega
      rw [if_neg c1, if_pos c2, set_used_apply, set_consecutive_apply, if_pos hx, if_pos hx]
    · rw [set_used_apply, set_consecutive_apply, if_neg hx, if_neg hx]
      by_cases c1 : page_number + 1 ≤ x + (i + 1) + k ∧ x + (i + 1) ≤ page_number
      · have c2 : page_number + 1 ≤ x + i + (k + 1) ∧ x + i ≤ page_number := by omega
        rw [if_pos c1, if_pos c2]
      · have c2 : ¬ (page_number + 1 ≤ x + i + (k + 1) ∧ x + i ≤ page_number) := by omega
        rw [if_neg c1, if_neg c2]

theorem my_realloc_grow_backward_eq (t : Table) (m : Memory) (s n size q f p : Nat)
    (hq : to_int (size / (MY_PAGE_SIZE * MY_ALIGNMENT)) = (q : Int))
    (hn : 1 ≤ n)
    (hrun : ∀ i, i < n - 1 → (sanity_check t (s + i)).consecutive = true)
    (hlast : (sanity_check t (s + (n - 1))).consecutive = false)
    (hm : n < q)
    (hf1 : f < q - n) (hf2 : s + n + f ≤ MY_NUMBER_OF_PAGES)
    (hf3 : ∀ j, j < f → (t (s + n + j)).used_memory = 0)
    (hf4 : s + n + f = MY_NUMBER_OF_PAGES ∨ (t (s + n + f)).used_memory ≠ 0)
    (hp1 : p ≤ q - n) (hp2 : p ≤ s)
    (hp3 : ∀ j, j < p → (t (s - 1 - j)).used_memory = 0)
    (hp4 : p = q - n ∨ p = s ∨ (t (s - p - 1)).used_memory ≠ 0)
    (hsum : q - n ≤ f + p) :
    ∃ m2, my_realloc t m (s * MY_PAGE_SIZE) size =
        some (some ((s - p) * MY_PAGE_SIZE),
          set_consecutive
            (set_used
              (fun x =>
                if s + (n - 1) + 0 ≤ x ∧ x < s + (n - 1) + 0 + (q - n - p) then
                  ⟨MY_ALIGNMENT * MY_PAGE_SIZE, true⟩
                else if s + 1 ≤ x + 1 + p ∧ x + 1 ≤ s then
                  ⟨MY_ALIGNMENT * MY_PAGE_SIZE, true⟩
                else sanity_check t x)
              (s + (n - 1) + (q - n - p)) (realloc_remainder size (q : Int)))
            (s + (n - 1) + (q - n - p)) false, m2)
      ∧ (∀ i, i < n * (MY_PAGE_SIZE * MY_ALIGNMENT) →
          m2 ((s - p) * MY_PAGE_SIZE * MY_ALIGNMENT + i) = m (s * MY_PAGE_SIZE * MY_ALIGNMENT + i))
      ∧ (∀ a, (a < (s - p) * MY_PAGE_SIZE * MY_ALIGNMENT
            ∨ (s - p) * MY_PAGE_SIZE * MY_ALIGNMENT + n * (MY_PAGE_SIZE * MY_ALIGNMENT) ≤ a) →
          m2 a = m a) := by
  have hP : MY_NUMBER_OF_PAGES = 16 := rfl
  have hp : s * MY_PAGE_SIZE / MY_PAGE_SIZE = s := Nat.mul_div_cancel s (by decide)
  have hwalk : realloc_walk (sanity_check t) (MY_NUMBER_OF_PAGES + 1) s 0
      = some (s + (n - 1), n) := by
    have := realloc_walk_run (sanity_check t) (n - 1) (MY_NUMBER_OF_PAGES + 1) s 0
      (by omega) (by omega) hrun hlast
    rw [this]
    congr 2
    omega
  have hne : ¬ ((q : Int) = (n : Int)) := by omega
  have hnlt : ¬ ((q : Int) < (n : Int)) := by omega
  have hfol : realloc_following (sanity_check t) ((q : Int) - (n : Int))
      (MY_NUMBER_OF_PAGES + 1) (s + (n - 1) + 1) 0 = (f : Int) := by
    rw [realloc_following_count (sanity_check t) _ f _ _ 0 (by omega) (by omega)
      (fun j hj => by
        rw [sanity_check_used, show s + (n - 1) + 1 + j = s + n + j by omega]
        exact hf3 j hj)
      (by
        rw [sanity_check_used, show s + (n - 1) + 1 + f = s + n + f by omega]
        rcases hf4 with h | h
        · exact Or.inl h
        · exact Or.inr (Or.inl h))
      (by omega)]
    omega
  have hprev : realloc_previous (sanity_check t) ((q : Int) - (n : Int))
      (MY_NUMBER_OF_PAGES + 1) ((s : Int) - 1) 0 = (p : Int) := by
    rw [realloc_previous_count (sanity_check t) _ p _ s 0 (by omega) hp2
      (fun j hj => by
        rw [sanity_check_used]
        exact hp3 j hj)
      (by
        rw [sanity_check_used]
        rcases hp4 with h | h | h
        · exact Or.inr (Or.inr (by omega))
        · exact Or.inl h
        · exact Or.inr (Or.inl h))
      (by omega)]
    omega
  have hc1 : ¬ ((f : Int) = (q : Int) - (n : Int)) := by omega
  have hc2 : (f : Int) + (p : Int) ≥ (q : Int) - (n : Int) := by omega
  have hmp := realloc_mark_previous_apply s p 1 (sanity_check t) (le_refl _) (by omega)
    (by omega)
  have hk : ((q : Int) - (n : Int) - (p : Int)).toNat = q - n - p := by omega
  have hmf := fun T => realloc_mark_following_apply (s + (n - 1)) (q - n - p) 0 T (by omega)
  have hlt : s + (n - 1) + (q - n - p) < MY_NUMBER_OF_PAGES := by omega
  have hnp : (((s * MY_PAGE_SIZE : Nat) : Int) - ((MY_PAGE_SIZE : Nat) : Int) * (p : Int)).toNat
      = (s - p) * MY_PAGE_SIZE := by
    have e : MY_PAGE_SIZE = 512 := rfl
    rw [e]
    push_cast
    omega
  have hlen : (((s + (n - 1) : Nat) : Int) - (s : Int) + 1) * ((MY_PAGE_SIZE : Nat) : Int)
      * ((MY_ALIGNMENT : Nat) : Int) = ((n * (MY_PAGE_SIZE * MY_ALIGNMENT) : Nat) : Int) := by
    have e1 : MY_PAGE_SIZE = 512 := rfl
    have e2 : MY_ALIGNMENT = 8 := rfl
    rw [e1, e2]
    push_cast
    omega
  obtain ⟨m2, hm1, hm2, hm3⟩ := my_memcpy_spec m ((s - p) * MY_PAGE_SIZE * MY_ALIGNMENT)
    (s * MY_PAGE_SIZE * MY_ALIGNMENT) (n * (MY_PAGE_SIZE * MY_ALIGNMENT))
    (by
      have e1 : MY_PAGE_SIZE = 512 := rfl
      have e2 : MY_ALIGNMENT = 8 := rfl
      have e3 : MY_MEMORY_SIZE = 65536 := rfl
      rw [e1, e2, e3]
      omega)
    (by
      have e1 : MY_PAGE_SIZE = 512 := rfl
      have e2 : MY_ALIGNMENT = 8 := rfl
      have e3 : MY_MEMORY_SIZE = 65536 := rfl
      rw [e1, e2, e3]
      omega)
  refine ⟨m2, ?_, hm2, hm3⟩
  unfold my_realloc
  simp only [hp, hq, hwalk, if_neg hne, if_neg hnlt, hfol, hprev, if_neg hc1, if_pos hc2,
    Int.toNat_ofNat, hmp, hk, hmf, if_pos hlt, hnp, hlen, hm1]

theorem my_realloc_grow_backward_aux (t : Table) (m : Memory) (s n size q f p : Nat)
    (hq : to_int (size / (MY_PAGE_SIZE * MY_ALIGNMENT)) = (q : Int))
    (hn : 1 ≤ n)
    (hrun : ∀ i, i < n - 1 → (sanity_check t (s + i)).consecutive = true)
    (hlast : (sanity_check t (s + (n - 1))).consecutive = false)
    (hm : n < q)
    (hf1 : f < q - n) (hf2 : s + n + f ≤ MY_NUMBER_OF_PAGES)
    (hf3 : ∀ j, j < f → (t (s + n + j)).used_memory = 0)
    (hf4 : s + n + f = MY_NUMBER_OF_PAGES ∨ (t (s + n + f)).used_memory ≠ 0)
    (hp1 : p ≤ q - n) (hp2 : p ≤ s)
    (hp3 : ∀ j, j < p → (t (s - 1 - j)).used_memory = 0)
    (hp4 : p = q - n ∨ p = s ∨ (t (s - p - 1)).used_memory ≠ 0)
    (hsum : q - n ≤ f + p) :
    ∃ t2 m2, my_realloc t m (s * MY_PAGE_SIZE) size
        = some (some ((s - p) * MY_PAGE_SIZE), t2, m2)
      ∧ (∀ j, j < p → t2 (s - 1 - j) = ⟨MY_PAGE_SIZE * MY_ALIGNMENT, true⟩)
      ∧ (∀ i, n - 1 ≤ i → i + p + 1 < q →
          t2 (s + i) = ⟨MY_PAGE_SIZE * MY_ALIGNMENT, true⟩)
      ∧ (∀ i, i < n - 1 → t2 (s + i) = sanity_check t (s + i))
      ∧ (t2 (s + (q - p - 1))).consecutive = false
      ∧ (∀ x, (x < s - p ∨ s + (q - p) ≤ x) → t2 x = sanity_check t x)
      ∧ (∀ i, i < n * (MY_PAGE_SIZE * MY_ALIGNMENT) →
          m2 ((s - p) * MY_PAGE_SIZE * MY_ALIGNMENT + i) = m (s * MY_PAGE_SIZE * MY_ALIGNMENT + i))
      ∧ (∀ a, (a < (s - p) * MY_PAGE_SIZE * MY_ALIGNMENT
            ∨ (s - p) * MY_PAGE_SIZE * MY_ALIGNMENT + n * (MY_PAGE_SIZE * MY_ALIGNMENT) ≤ a) →
          m2 a = m a) := by
  have hP : MY_NUMBER_OF_PAGES = 16 := rfl
  obtain ⟨m2, h1, h2, h3⟩ := my_realloc_grow_backward_eq t m s n size q f p hq hn hrun hlast hm
    hf1 hf2 hf3 hf4 hp1 hp2 hp3 hp4 hsum
  refine ⟨_, m2, h1, ?_, ?_, ?_, ?_, ?_, h2, h3⟩
  · intro j hj
    have hne : ¬ (s - 1 - j = s + (n - 1) + (q - n - p)) := by omega
    have c1 : ¬ (s + (n - 1) + 0 ≤ s - 1 - j ∧ s - 1 - j < s + (n - 1) + 0 + (q - n - p)) := by
      omega
    have c2 : s + 1 ≤ s - 1 - j + 1 + p ∧ s - 1 - j + 1 ≤ s := by omega
    rw [set_consecutive_apply, set_used_apply, if_neg hne, if_neg hne]
    simp only [if_neg c1, if_pos c2]
    rfl
  · intro i hi1 hi2
    have hne : ¬ (s + i = s + (n - 1) + (q - n - p)) := by omega
    have c1 : s + (n - 1) + 0 ≤ s + i ∧ s + i < s + (n - 1) + 0 + (q - n - p) := by omega
    rw [set_consecutive_apply, set_used_apply, if_neg hne, if_neg hne]
    simp only [if_pos c1]
    rfl
  · intro i hi
    have hne : ¬ (s + i = s + (n - 1) + (q - n - p)) := by omega
    have c1 : ¬ (s + (n - 1) + 0 ≤ s + i ∧ s + i < s + (n - 1) + 0 + (q - n - p)) := by omega
    have c2 : ¬ (s + 1 ≤ s + i + 1 + p ∧ s + i + 1 ≤ s) := by omega
    rw [set_consecutive_apply, set_used_apply, if_neg hne, if_neg hne]
    simp only [if_neg c1, if_neg c2]
  · have e : s + (q - p - 1) = s + (n - 1) + (q - n - p) := by omega
    rw [e, set_consecutive_apply, if_pos rfl]
  · intro x hx
    have hne : ¬ (x = s + (n - 1) + (q - n - p)) := by omega
    have c1 : ¬ (s + (n - 1) + 0 ≤ x ∧ x < s + (n - 1) + 0 + (q - n - p)) := by omega
    have c2 : ¬ (s + 1 ≤ x + 1 + p ∧ x + 1 ≤ s) := by omega
    rw [set_consecutive_apply, set_used_apply, if_neg hne, if_neg hne]
    simp only [if_neg c1, if_neg c2]

/-- C11 (amended). Grow backward consumes preceding pages first: let the run
that the walk of `my_realloc` finds at page `s` have `n` pages (after
`sanity_check` pages `s .. s + n - 2` are flagged `consecutive` and page
`s + n - 1` is not), let `q > n` be `required_number_of_pages` as the code
computes it (`size / C` converted to `int`, which is `size / C` for every
size below `2 ^ 43`), let `f < q - n` free pages follow the run and `p` free
pages precede it (counted up to `q - n`) with `f + p ≥ q - n`. Then
`my_realloc` returns the old start address moved back by exactly `p` pages;
the `p` preceding pages and the pages `s + n - 1 .. s + q - p - 2` become
full continuation pages, the pages `s .. s + n - 2` keep their
`used_memory`, and afterwards the run walked from the new pointer is the `q`
pages `s - p .. s - p + q - 1`, each but the last flagged, so that only
`q - n - p` following pages are consumed; every page outside the new run has
the descriptor that `sanity_check` gives it. -/
theorem my_realloc_grow_backward (t : Table) (m : Memory) (s n size q f p : Nat)
    (hq : to_int (size / (MY_PAGE_SIZE * MY_ALIGNMENT)) = (q : Int))
    (hn : 1 ≤ n)
    (hrun : ∀ i, i < n - 1 → (sanity_check t (s + i)).consecutive = true)
    (hlast : (sanity_check t (s + (n - 1))).consecutive = false)
    (hm : n < q)
    (hf1 : f < q - n)
    (hf2 : s + n + f ≤ MY_NUMBER_OF_PAGES)
    (hf3 : ∀ j, j < f → (t (s + n + j)).used_memory = 0)
    (hf4 : s + n + f = MY_NUMBER_OF_PAGES ∨ (t (s + n + f)).used_memory ≠ 0)
    (hp1 : p ≤ q - n) (hp2 : p ≤ s)
    (hp3 : ∀ j, j < p → (t (s - 1 - j)).used_memory = 0)
    (hp4 : p = q - n ∨ p = s ∨ (t (s - p - 1)).used_memory ≠ 0)
    (hsum : q - n ≤ f + p) :
    ∃ t2 m2, my_realloc t m (s * MY_PAGE_SIZE) size
        = some (some ((s - p) * MY_PAGE_SIZE), t2, m2)
      ∧ (∀ j, j < p → t2 (s - 1 - j) = ⟨MY_PAGE_SIZE * MY_ALIGNMENT, true⟩)
      ∧ (∀ i, n - 1 ≤ i → i + p + 1 < q →
          t2 (s + i) = ⟨MY_PAGE_SIZE * MY_ALIGNMENT, true⟩)
      ∧ (∀ i, i < n - 1 → (t2 (s + i)).used_memory = (t (s + i)).used_memory)
      ∧ (∀ i, i < q - 1 → (t2 (s - p + i)).consecutive = true)
      ∧ (t2 (s - p + (q - 1))).consecutive = false
      ∧ run_pages t2 (s - p) = List.range' (s - p) q
      ∧ run_pages (sanity_check t2) (s - p) = List.range' (s - p) q
      ∧ (∀ x, (x < s - p ∨ s - p + q ≤ x) → t2 x = sanity_check t x) := by
  have hP : MY_NUMBER_OF_PAGES = 16 := rfl
  obtain ⟨t2, m2, h1, hA, hB, hC, hD, hE, _, _⟩ := my_realloc_grow_backward_aux t m s n size q
    f p hq hn hrun hlast hm hf1 hf2 hf3 hf4 hp1 hp2 hp3 hp4 hsum
  have hk : q - 1 + 1 = q := by omega
  have hflag : ∀ i, i < q - 1 →
      (t2 (s - p + i)).consecutive = true ∧ (t2 (s - p + i)).used_memory ≠ 0 := by
    intro i hi
    by_cases c1 : i < p
    · have e : s - p + i = s - 1 - (p - 1 - i) := by omega
      rw [e, hA (p - 1 - i) (by omega)]
      exact ⟨rfl, by decide⟩
    · by_cases c2 : i - p < n - 1
      · have e : s - p + i = s + (i - p) := by omega
        rw [e, hC (i - p) c2]
        have := sanity_check_flag_true t (s + (i - p)) (hrun (i - p) c2)
        exact ⟨hrun (i - p) c2, by rw [sanity_check_used]; exact this.2.2 (by omega)⟩
      · have e : s - p + i = s + (i - p) := by omega
        rw [e, hB (i - p) (by omega) (by omega)]
        exact ⟨rfl, by decide⟩
  have hterm : (t2 (s - p + (q - 1))).consecutive = false := by
    have e : s - p + (q - 1) = s + (q - p - 1) := by omega
    rw [e]
    exact hD
  refine ⟨t2, m2, h1, hA, hB, ?_, fun i hi => (hflag i hi).1, hterm, ?_, ?_, ?_⟩
  · intro i hi
    rw [hC i hi, sanity_check_used]
  · rw [run_pages_of_run t2 (s - p) (q - 1) (by omega) (fun i hi => (hflag i hi).1) hterm, hk]
  · rw [run_pages_sanity_of_run t2 (s - p) (q - 1) (by omega) hflag hterm, hk]
  · intro x hx
    exact hE x (by omega)

/-- Witness for C11: after `my_alloc 100`, `my_alloc 12288`, `my_alloc 100`,
`my_free` of the first and a shrink of the second to 8200 bytes, page 0 is
free, the run walked from page 1 is pages 1 to 3 with page 2 at `(8, true)`,
and page 4 is occupied; a request of four pages moves the start back to
page 0. -/
theorem my_realloc_grow_backward_witness :
    ∃ t2 m2, my_realloc (fun i => if i = 1 then ⟨4096, true⟩ else if i = 2 then ⟨8, true⟩
          else if i = 4 then ⟨100, false⟩ else ⟨0, false⟩) initialize_memory
          (1 * MY_PAGE_SIZE) 16384 = some (some ((1 - 1) * MY_PAGE_SIZE), t2, m2)
      ∧ run_pages (sanity_check t2) (1 - 1) = List.range' (1 - 1) 4 :=
  have h := my_realloc_grow_backward
    (fun i => if i = 1 then ⟨4096, true⟩ else if i = 2 then ⟨8, true⟩
      else if i = 4 then ⟨100, false⟩ else ⟨0, false⟩)
    initialize_memory 1 3 16384 4 0 1
    (by decide) (by decide) (by decide) (by decide) (by decide) (by decide) (by decide)
    (by decide) (by decide) (by decide) (by decide) (by decide) (by decide) (by decide)
  h.elim (fun t2 h2 => h2.elim (fun m2 h3 => ⟨t2, m2, h3.1, h3.2.2.2.2.2.2.2.1⟩))

/-- C11, as stated, fails on the table with a one-page run on page 5, page 6
free, page 7 occupied, pages 3 and 4 free and page 2 occupied: a request of
three pages has `extra = 2` and `f = 1`, so the claim puts the new start
`extra - f = 1` page back at page 4 with page 6 in the run; `my_realloc`
returns page 3 and leaves page 6 free. -/
theorem my_realloc_grow_backward_takes_preceding_first :
    ∃ t2 m2, my_realloc (fun i => if i = 5 then ⟨100, false⟩
          else if i = 7 ∨ i = 2 then ⟨9, false⟩ else ⟨0, false⟩) initialize_memory
          (5 * MY_PAGE_SIZE) 12288 = some (some (3 * MY_PAGE_SIZE), t2, m2)
      ∧ t2 6 = ⟨0, false⟩
      ∧ 3 * MY_PAGE_SIZE ≠ (5 - (2 - 1)) * MY_PAGE_SIZE :=
  have h := my_realloc_grow_backward_eq
    (fun i => if i = 5 then ⟨100, false⟩ else if i = 7 ∨ i = 2 then ⟨9, false⟩ else ⟨0, false⟩)
    initialize_memory 5 1 12288 3 1 2 (by decide)
    (by decide) (by decide) (by decide) (by decide) (by decide) (by decide) (by decide)
    (by decide) (by decide) (by decide) (by decide) (by decide) (by decide)
  h.elim (fun m2 h2 => ⟨_, m2, h2.1, by decide, by decide⟩)

end MemoryManagement
